import Mathlib

/-!
# Model-to-code generator: parser and emitter of `standalone_ui_logic.js`

A shallow embedding of the generator core of the class `StandaloneModelToCode`
(`parseSimpleModel`, `generateFilename`, `generateClassCode` and its three
sub-generators, the type tables, `simulateCodeGeneration`) and of
`validateModel`, together with the properties the specification states about
them.

Conventions of the embedding.

* A JavaScript string is a `List Char`.  All string operations used by the
  generator (`split`, `trim`, `endsWith`, `includes`, `slice(0, -1)`) look at
  characters of the Basic Multilingual Plane only, so reading a string as a
  sequence of code points instead of UTF-16 code units changes nothing.
* `toLowerCase` is the lower-casing of the Unicode character database without
  regard to the locale, with the case tables of Unicode 14 written out
  (`lowerCaseRanges`, `caseIgnorableRanges`, `casedRanges`): `É` gives `é`, the
  capital I with dot above gives two characters, a capital sigma at the end of
  a word gives the final sigma.
* A thrown `TypeError` is the error side of `Except`.
* `this.currentLanguage` is passed as the first argument of every function
  that reads it.
-/

namespace UmlToCode

/-! ## Strings -/

/-- The characters removed by `String.prototype.trim`: ECMAScript white space
and line terminators. -/
def isWhiteSpace (c : Char) : Bool :=
  let n := c.toNat
  (9 ≤ n && n ≤ 13) || n == 32 || n == 160 || n == 5760 ||
  (8192 ≤ n && n ≤ 8202) || n == 8232 || n == 8233 || n == 8239 ||
  n == 8287 || n == 12288 || n == 65279

/-- The string without its trailing white space. -/
def trimEnd (s : List Char) : List Char :=
  (s.reverse.dropWhile isWhiteSpace).reverse

/-- The method `s.trim()`. -/
def trim (s : List Char) : List Char :=
  trimEnd (s.dropWhile isWhiteSpace)

/-- The method `s.split(sep)` for a one-character separator: the pieces between
the occurrences of `sep`; a string without `sep` (the empty one included) gives
one piece. -/
def split (sep : Char) : List Char → List (List Char)
  | [] => [[]]
  | c :: cs =>
    if c = sep then [] :: split sep cs
    else
      match split sep cs with
      | [] => [[c]]
      | p :: ps => (c :: p) :: ps

/-- The method `s.endsWith(c)` for a one-character argument. -/
def endsWith (s : List Char) (c : Char) : Bool :=
  s.getLast? == some c

/-- The method `s.includes(c)` for a one-character argument. -/
def includes (s : List Char) (c : Char) : Bool :=
  s.contains c

/-- The characters outside ASCII that have a lower case of one character, by
the case tables of Unicode 14, as ranges (first, last, step, lower case of the
first): the character `first + k * step` has the lower case
`lower case of the first + k * step`. -/
def lowerCaseRanges : List (Nat × Nat × Nat × Nat) :=
  [(192, 214, 1, 224), (216, 222, 1, 248), (256, 302, 2, 257), (306, 310, 2, 307),
   (313, 327, 2, 314), (330, 374, 2, 331), (376, 376, 1, 255), (377, 381, 2, 378),
   (385, 385, 1, 595), (386, 388, 2, 387), (390, 390, 1, 596), (391, 391, 1, 392),
   (393, 394, 1, 598), (395, 395, 1, 396), (398, 398, 1, 477), (399, 399, 1, 601),
   (400, 400, 1, 603), (401, 401, 1, 402), (403, 403, 1, 608), (404, 404, 1, 611),
   (406, 406, 1, 617), (407, 407, 1, 616), (408, 408, 1, 409), (412, 412, 1, 623),
   (413, 413, 1, 626), (415, 415, 1, 629), (416, 420, 2, 417), (422, 422, 1, 640),
   (423, 423, 1, 424), (425, 425, 1, 643), (428, 428, 1, 429), (430, 430, 1, 648),
   (431, 431, 1, 432), (433, 434, 1, 650), (435, 437, 2, 436), (439, 439, 1, 658),
   (440, 440, 1, 441), (444, 444, 1, 445), (452, 452, 1, 454), (453, 453, 1, 454),
   (455, 455, 1, 457), (456, 456, 1, 457), (458, 458, 1, 460), (459, 475, 2, 460),
   (478, 494, 2, 479), (497, 497, 1, 499), (498, 500, 2, 499), (502, 502, 1, 405),
   (503, 503, 1, 447), (504, 542, 2, 505), (544, 544, 1, 414), (546, 562, 2, 547),
   (570, 570, 1, 11365), (571, 571, 1, 572), (573, 573, 1, 410), (574, 574, 1, 11366),
   (577, 577, 1, 578), (579, 579, 1, 384), (580, 580, 1, 649), (581, 581, 1, 652),
   (582, 590, 2, 583), (880, 882, 2, 881), (886, 886, 1, 887), (895, 895, 1, 1011),
   (902, 902, 1, 940), (904, 906, 1, 941), (908, 908, 1, 972), (910, 911, 1, 973),
   (913, 929, 1, 945), (931, 939, 1, 963), (975, 975, 1, 983), (984, 1006, 2, 985),
   (1012, 1012, 1, 952), (1015, 1015, 1, 1016), (1017, 1017, 1, 1010), (1018, 1018, 1, 1019),
   (1021, 1023, 1, 891), (1024, 1039, 1, 1104), (1040, 1071, 1, 1072), (1120, 1152, 2, 1121),
   (1162, 1214, 2, 1163), (1216, 1216, 1, 1231), (1217, 1229, 2, 1218), (1232, 1326, 2, 1233),
   (1329, 1366, 1, 1377), (4256, 4293, 1, 11520), (4295, 4295, 1, 11559), (4301, 4301, 1, 11565),
   (5024, 5103, 1, 43888), (5104, 5109, 1, 5112), (7312, 7354, 1, 4304), (7357, 7359, 1, 4349),
   (7680, 7828, 2, 7681), (7838, 7838, 1, 223), (7840, 7934, 2, 7841), (7944, 7951, 1, 7936),
   (7960, 7965, 1, 7952), (7976, 7983, 1, 7968), (7992, 7999, 1, 7984), (8008, 8013, 1, 8000),
   (8025, 8031, 2, 8017), (8040, 8047, 1, 8032), (8072, 8079, 1, 8064), (8088, 8095, 1, 8080),
   (8104, 8111, 1, 8096), (8120, 8121, 1, 8112), (8122, 8123, 1, 8048), (8124, 8124, 1, 8115),
   (8136, 8139, 1, 8050), (8140, 8140, 1, 8131), (8152, 8153, 1, 8144), (8154, 8155, 1, 8054),
   (8168, 8169, 1, 8160), (8170, 8171, 1, 8058), (8172, 8172, 1, 8165), (8184, 8185, 1, 8056),
   (8186, 8187, 1, 8060), (8188, 8188, 1, 8179), (8486, 8486, 1, 969), (8490, 8490, 1, 107),
   (8491, 8491, 1, 229), (8498, 8498, 1, 8526), (8544, 8559, 1, 8560), (8579, 8579, 1, 8580),
   (9398, 9423, 1, 9424), (11264, 11311, 1, 11312), (11360, 11360, 1, 11361),
   (11362, 11362, 1, 619), (11363, 11363, 1, 7549), (11364, 11364, 1, 637),
   (11367, 11371, 2, 11368), (11373, 11373, 1, 593), (11374, 11374, 1, 625),
   (11375, 11375, 1, 592), (11376, 11376, 1, 594), (11378, 11378, 1, 11379),
   (11381, 11381, 1, 11382), (11390, 11391, 1, 575), (11392, 11490, 2, 11393),
   (11499, 11501, 2, 11500), (11506, 11506, 1, 11507), (42560, 42604, 2, 42561),
   (42624, 42650, 2, 42625), (42786, 42798, 2, 42787), (42802, 42862, 2, 42803),
   (42873, 42875, 2, 42874), (42877, 42877, 1, 7545), (42878, 42886, 2, 42879),
   (42891, 42891, 1, 42892), (42893, 42893, 1, 613), (42896, 42898, 2, 42897),
   (42902, 42920, 2, 42903), (42922, 42922, 1, 614), (42923, 42923, 1, 604),
   (42924, 42924, 1, 609), (42925, 42925, 1, 620), (42926, 42926, 1, 618),
   (42928, 42928, 1, 670), (42929, 42929, 1, 647), (42930, 42930, 1, 669),
   (42931, 42931, 1, 43859), (42932, 42946, 2, 42933), (42948, 42948, 1, 42900),
   (42949, 42949, 1, 642), (42950, 42950, 1, 7566), (42951, 42953, 2, 42952),
   (42960, 42960, 1, 42961), (42966, 42968, 2, 42967), (42997, 42997, 1, 42998),
   (65313, 65338, 1, 65345), (66560, 66599, 1, 66600), (66736, 66771, 1, 66776),
   (66928, 66938, 1, 66967), (66940, 66954, 1, 66979), (66956, 66962, 1, 66995),
   (66964, 66965, 1, 67003), (68736, 68786, 1, 68800), (71840, 71871, 1, 71872),
   (93760, 93791, 1, 93792), (125184, 125217, 1, 125218)]

/-- The case-ignorable characters of Unicode 14, as ranges (first, last). -/
def caseIgnorableRanges : List (Nat × Nat) :=
  [(39, 39), (46, 46), (58, 58), (94, 94), (96, 96), (168, 168), (173, 173), (175, 175),
   (180, 180), (183, 184), (688, 879), (884, 885), (890, 890), (900, 901), (903, 903),
   (1155, 1161), (1369, 1369), (1375, 1375), (1425, 1469), (1471, 1471), (1473, 1474),
   (1476, 1477), (1479, 1479), (1524, 1524), (1536, 1541), (1552, 1562), (1564, 1564),
   (1600, 1600), (1611, 1631), (1648, 1648), (1750, 1757), (1759, 1768), (1770, 1773),
   (1807, 1807), (1809, 1809), (1840, 1866), (1958, 1968), (2027, 2037), (2042, 2042),
   (2045, 2045), (2070, 2093), (2137, 2139), (2184, 2184), (2192, 2193), (2200, 2207),
   (2249, 2306), (2362, 2362), (2364, 2364), (2369, 2376), (2381, 2381), (2385, 2391),
   (2402, 2403), (2417, 2417), (2433, 2433), (2492, 2492), (2497, 2500), (2509, 2509),
   (2530, 2531), (2558, 2558), (2561, 2562), (2620, 2620), (2625, 2626), (2631, 2632),
   (2635, 2637), (2641, 2641), (2672, 2673), (2677, 2677), (2689, 2690), (2748, 2748),
   (2753, 2757), (2759, 2760), (2765, 2765), (2786, 2787), (2810, 2815), (2817, 2817),
   (2876, 2876), (2879, 2879), (2881, 2884), (2893, 2893), (2901, 2902), (2914, 2915),
   (2946, 2946), (3008, 3008), (3021, 3021), (3072, 3072), (3076, 3076), (3132, 3132),
   (3134, 3136), (3142, 3144), (3146, 3149), (3157, 3158), (3170, 3171), (3201, 3201),
   (3260, 3260), (3263, 3263), (3270, 3270), (3276, 3277), (3298, 3299), (3328, 3329),
   (3387, 3388), (3393, 3396), (3405, 3405), (3426, 3427), (3457, 3457), (3530, 3530),
   (3538, 3540), (3542, 3542), (3633, 3633), (3636, 3642), (3654, 3662), (3761, 3761),
   (3764, 3772), (3782, 3782), (3784, 3789), (3864, 3865), (3893, 3893), (3895, 3895),
   (3897, 3897), (3953, 3966), (3968, 3972), (3974, 3975), (3981, 3991), (3993, 4028),
   (4038, 4038), (4141, 4144), (4146, 4151), (4153, 4154), (4157, 4158), (4184, 4185),
   (4190, 4192), (4209, 4212), (4226, 4226), (4229, 4230), (4237, 4237), (4253, 4253),
   (4348, 4348), (4957, 4959), (5906, 5908), (5938, 5939), (5970, 5971), (6002, 6003),
   (6068, 6069), (6071, 6077), (6086, 6086), (6089, 6099), (6103, 6103), (6109, 6109),
   (6155, 6159), (6211, 6211), (6277, 6278), (6313, 6313), (6432, 6434), (6439, 6440),
   (6450, 6450), (6457, 6459), (6679, 6680), (6683, 6683), (6742, 6742), (6744, 6750),
   (6752, 6752), (6754, 6754), (6757, 6764), (6771, 6780), (6783, 6783), (6823, 6823),
   (6832, 6862), (6912, 6915), (6964, 6964), (6966, 6970), (6972, 6972), (6978, 6978),
   (7019, 7027), (7040, 7041), (7074, 7077), (7080, 7081), (7083, 7085), (7142, 7142),
   (7144, 7145), (7149, 7149), (7151, 7153), (7212, 7219), (7222, 7223), (7288, 7293),
   (7376, 7378), (7380, 7392), (7394, 7400), (7405, 7405), (7412, 7412), (7416, 7417),
   (7468, 7530), (7544, 7544), (7579, 7679), (8125, 8125), (8127, 8129), (8141, 8143),
   (8157, 8159), (8173, 8175), (8189, 8190), (8203, 8207), (8216, 8217), (8228, 8228),
   (8231, 8231), (8234, 8238), (8288, 8292), (8294, 8303), (8305, 8305), (8319, 8319),
   (8336, 8348), (8400, 8432), (11388, 11389), (11503, 11505), (11631, 11631), (11647, 11647),
   (11744, 11775), (11823, 11823), (12293, 12293), (12330, 12333), (12337, 12341),
   (12347, 12347), (12441, 12446), (12540, 12542), (40981, 40981), (42232, 42237),
   (42508, 42508), (42607, 42610), (42612, 42621), (42623, 42623), (42652, 42655),
   (42736, 42737), (42752, 42785), (42864, 42864), (42888, 42890), (42994, 42996),
   (43000, 43001), (43010, 43010), (43014, 43014), (43019, 43019), (43045, 43046),
   (43052, 43052), (43204, 43205), (43232, 43249), (43263, 43263), (43302, 43309),
   (43335, 43345), (43392, 43394), (43443, 43443), (43446, 43449), (43452, 43453),
   (43471, 43471), (43493, 43494), (43561, 43566), (43569, 43570), (43573, 43574),
   (43587, 43587), (43596, 43596), (43632, 43632), (43644, 43644), (43696, 43696),
   (43698, 43700), (43703, 43704), (43710, 43711), (43713, 43713), (43741, 43741),
   (43756, 43757), (43763, 43764), (43766, 43766), (43867, 43871), (43881, 43883),
   (44005, 44005), (44008, 44008), (44013, 44013), (64286, 64286), (64434, 64450),
   (65024, 65039), (65043, 65043), (65056, 65071), (65106, 65106), (65109, 65109),
   (65279, 65279), (65287, 65287), (65294, 65294), (65306, 65306), (65342, 65342),
   (65344, 65344), (65392, 65392), (65438, 65439), (65507, 65507), (65529, 65531),
   (66045, 66045), (66272, 66272), (66422, 66426), (67456, 67461), (67463, 67504),
   (67506, 67514), (68097, 68099), (68101, 68102), (68108, 68111), (68152, 68154),
   (68159, 68159), (68325, 68326), (68900, 68903), (69291, 69292), (69446, 69456),
   (69506, 69509), (69633, 69633), (69688, 69702), (69744, 69744), (69747, 69748),
   (69759, 69761), (69811, 69814), (69817, 69818), (69821, 69821), (69826, 69826),
   (69837, 69837), (69888, 69890), (69927, 69931), (69933, 69940), (70003, 70003),
   (70016, 70017), (70070, 70078), (70089, 70092), (70095, 70095), (70191, 70193),
   (70196, 70196), (70198, 70199), (70206, 70206), (70367, 70367), (70371, 70378),
   (70400, 70401), (70459, 70460), (70464, 70464), (70502, 70508), (70512, 70516),
   (70712, 70719), (70722, 70724), (70726, 70726), (70750, 70750), (70835, 70840),
   (70842, 70842), (70847, 70848), (70850, 70851), (71090, 71093), (71100, 71101),
   (71103, 71104), (71132, 71133), (71219, 71226), (71229, 71229), (71231, 71232),
   (71339, 71339), (71341, 71341), (71344, 71349), (71351, 71351), (71453, 71455),
   (71458, 71461), (71463, 71467), (71727, 71735), (71737, 71738), (71995, 71996),
   (71998, 71998), (72003, 72003), (72148, 72151), (72154, 72155), (72160, 72160),
   (72193, 72202), (72243, 72248), (72251, 72254), (72263, 72263), (72273, 72278),
   (72281, 72283), (72330, 72342), (72344, 72345), (72752, 72758), (72760, 72765),
   (72767, 72767), (72850, 72871), (72874, 72880), (72882, 72883), (72885, 72886),
   (73009, 73014), (73018, 73018), (73020, 73021), (73023, 73029), (73031, 73031),
   (73104, 73105), (73109, 73109), (73111, 73111), (73459, 73460), (78896, 78904),
   (92912, 92916), (92976, 92982), (92992, 92995), (94031, 94031), (94095, 94111),
   (94176, 94177), (94179, 94180), (110576, 110579), (110581, 110587), (110589, 110590),
   (113821, 113822), (113824, 113827), (118528, 118573), (118576, 118598), (119143, 119145),
   (119155, 119170), (119173, 119179), (119210, 119213), (119362, 119364), (121344, 121398),
   (121403, 121452), (121461, 121461), (121476, 121476), (121499, 121503), (121505, 121519),
   (122880, 122886), (122888, 122904), (122907, 122913), (122915, 122916), (122918, 122922),
   (123184, 123197), (123566, 123566), (123628, 123631), (125136, 125142), (125252, 125259),
   (127995, 127999), (917505, 917505), (917536, 917631), (917760, 917999)]

/-- The cased characters of Unicode 14 that are not case-ignorable, as ranges
(first, last). -/
def casedRanges : List (Nat × Nat) :=
  [(65, 90), (97, 122), (170, 170), (181, 181), (186, 186), (192, 214), (216, 246), (248, 442),
   (444, 447), (452, 659), (661, 687), (880, 883), (886, 887), (891, 893), (895, 895),
   (902, 902), (904, 906), (908, 908), (910, 929), (931, 1013), (1015, 1153), (1162, 1327),
   (1329, 1366), (1376, 1416), (4256, 4293), (4295, 4295), (4301, 4301), (4304, 4346),
   (4349, 4351), (5024, 5109), (5112, 5117), (7296, 7304), (7312, 7354), (7357, 7359),
   (7424, 7467), (7531, 7543), (7545, 7578), (7680, 7957), (7960, 7965), (7968, 8005),
   (8008, 8013), (8016, 8023), (8025, 8025), (8027, 8027), (8029, 8029), (8031, 8061),
   (8064, 8116), (8118, 8124), (8126, 8126), (8130, 8132), (8134, 8140), (8144, 8147),
   (8150, 8155), (8160, 8172), (8178, 8180), (8182, 8188), (8450, 8450), (8455, 8455),
   (8458, 8467), (8469, 8469), (8473, 8477), (8484, 8484), (8486, 8486), (8488, 8488),
   (8490, 8493), (8495, 8500), (8505, 8505), (8508, 8511), (8517, 8521), (8526, 8526),
   (8544, 8575), (8579, 8580), (9398, 9449), (11264, 11387), (11390, 11492), (11499, 11502),
   (11506, 11507), (11520, 11557), (11559, 11559), (11565, 11565), (42560, 42605),
   (42624, 42651), (42786, 42863), (42865, 42887), (42891, 42894), (42896, 42954),
   (42960, 42961), (42963, 42963), (42965, 42969), (42997, 42998), (43002, 43002),
   (43824, 43866), (43872, 43880), (43888, 43967), (64256, 64262), (64275, 64279),
   (65313, 65338), (65345, 65370), (66560, 66639), (66736, 66771), (66776, 66811),
   (66928, 66938), (66940, 66954), (66956, 66962), (66964, 66965), (66967, 66977),
   (66979, 66993), (66995, 67001), (67003, 67004), (68736, 68786), (68800, 68850),
   (71840, 71903), (93760, 93823), (119808, 119892), (119894, 119964), (119966, 119967),
   (119970, 119970), (119973, 119974), (119977, 119980), (119982, 119993), (119995, 119995),
   (119997, 120003), (120005, 120069), (120071, 120074), (120077, 120084), (120086, 120092),
   (120094, 120121), (120123, 120126), (120128, 120132), (120134, 120134), (120138, 120144),
   (120146, 120485), (120488, 120512), (120514, 120538), (120540, 120570), (120572, 120596),
   (120598, 120628), (120630, 120654), (120656, 120686), (120688, 120712), (120714, 120744),
   (120746, 120770), (120772, 120779), (122624, 122633), (122635, 122654), (125184, 125251),
   (127280, 127305), (127312, 127337), (127344, 127369)]

/-- Membership of a code point in a list of ranges. -/
def inRanges (ranges : List (Nat × Nat)) (n : Nat) : Bool :=
  ranges.any (fun r => r.1 ≤ n && n ≤ r.2)

/-- A case-ignorable character. -/
def isCaseIgnorable (c : Char) : Bool :=
  inRanges caseIgnorableRanges c.toNat

/-- A cased character that is not case-ignorable. -/
def isCased (c : Char) : Bool :=
  inRanges casedRanges c.toNat

/-- The lower case of one character other than the capital sigma: an ASCII
letter by `Char.toLower`, the capital I with dot above (U+0130) as `i` followed
by the combining dot above, any other character by `lowerCaseRanges`. -/
def lowerChar (c : Char) : List Char :=
  let n := c.toNat
  if n < 128 then [c.toLower]
  else if n = 304 then ['i', Char.ofNat 775]
  else
    match lowerCaseRanges.find? (fun r => r.1 ≤ n && n ≤ r.2.1 && (n - r.1) % r.2.2.1 == 0) with
    | some r => [Char.ofNat (r.2.2.2 + (n - r.1))]
    | none => [c]

/-- The condition under which a capital sigma becomes the final small sigma:
going back from it over the case-ignorable characters one meets a cased
character, and going forward over the case-ignorable characters one meets no
cased character.  `before` is the text before the sigma, nearest character
first. -/
def isFinalSigma (before after : List Char) : Bool :=
  (match before.dropWhile isCaseIgnorable with
    | c :: _ => isCased c
    | [] => false) &&
  (match after.dropWhile isCaseIgnorable with
    | c :: _ => !isCased c
    | [] => true)

/-- The lower case of the rest of a string, `before` being the characters
already passed, nearest first. -/
def lowerFrom (before : List Char) : List Char → List Char
  | [] => []
  | c :: cs =>
    (if c.toNat = 931 then
      (if isFinalSigma before cs then [Char.ofNat 962] else [Char.ofNat 963])
    else lowerChar c) ++ lowerFrom (c :: before) cs

/-- The method `s.toLowerCase()`: the lower case of the Unicode character
database, without regard to the locale. -/
def toLowerCase (s : List Char) : List Char :=
  lowerFrom [] s

/-! ## Data model -/

/-- The object built by `parseSimpleModel` for one class: the name and the raw
(trimmed) attribute and method lines, each in the order of the text. -/
structure ClassDescriptor where
  name : List Char
  attributes : List (List Char)
  methods : List (List Char)
  deriving DecidableEq, Repr

/-- The two variables of `parseSimpleModel` that its loop updates: the array
`classes` and `currentClass` (`none` is `null`). -/
structure ParseState where
  classes : List ClassDescriptor
  currentClass : Option ClassDescriptor
  deriving DecidableEq, Repr

/-! ## Model parser -/

/-- The array `classes` after `if (currentClass) classes.push(currentClass)`. -/
def pushCurrent (st : ParseState) : List ClassDescriptor :=
  match st.currentClass with
  | some c => st.classes ++ [c]
  | none => st.classes

/-- The body of the `lines.forEach` callback of `parseSimpleModel`. -/
def parseLine (st : ParseState) (line : List Char) : ParseState :=
  let trimmed := trim line
  if endsWith trimmed ':' then
    { classes := pushCurrent st,
      currentClass := some
        { name := trimmed.dropLast, attributes := [], methods := [] } }
  else
    match st.currentClass with
    | some c =>
      if trimmed ≠ [] then
        if includes trimmed '(' && includes trimmed ')' then
          { st with currentClass := some { c with methods := c.methods ++ [trimmed] } }
        else if includes trimmed ':' then
          { st with currentClass := some { c with attributes := c.attributes ++ [trimmed] } }
        else st
      else st
    | none => st

/-- The function `parseSimpleModel(modelText)`. -/
def parseSimpleModel (modelText : List Char) : List ClassDescriptor :=
  let lines := split '\n' modelText
  pushCurrent (lines.foldl parseLine { classes := [], currentClass := none })

/-- The destructuring `[name, type] = attr.split(':').map(s => s.trim())`:
the first segment, and the second one when there is one (`none` is
`undefined`). -/
def attrNameType (attr : List Char) : List Char × Option (List Char) :=
  let segs := (split ':' attr).map trim
  (segs.headD [], segs.tail.head?)

/-- The expression `method.split('(')[0]`. -/
def methodName (method : List Char) : List Char :=
  (split '(' method).headD []

/-- The example model of the specification. -/
def exampleModel : List Char :=
  "User:\n  id: int\n  username: string\n  getId()".toList

/-! ## Values, property reads, errors -/

/-- The exception the generator can raise: a `TypeError` (calling `undefined`,
or reading a property of `undefined`). -/
inductive JSError
  | typeError
  deriving DecidableEq, Repr

deriving instance DecidableEq for Except

/-- The JavaScript values that occur in the emitter: strings, `undefined`,
booleans, a plain object, and a member of `Object.prototype` reached through
the prototype chain of an object literal (named by its key). -/
inductive JSValue
  | str (s : List Char)
  | undefined
  | bool (b : Bool)
  | object
  | inherited (key : List Char)
  deriving DecidableEq, Repr, Inhabited

/-- The property names every object literal inherits from `Object.prototype`. -/
def objectPrototypeKeys : List (List Char) :=
  ["constructor".toList, "__proto__".toList, "hasOwnProperty".toList,
   "isPrototypeOf".toList, "propertyIsEnumerable".toList, "toLocaleString".toList,
   "toString".toList, "valueOf".toList, "__defineGetter__".toList,
   "__defineSetter__".toList, "__lookupGetter__".toList, "__lookupSetter__".toList]

/-- The property read `table[key]` on an object literal whose own properties
are the string entries of `table`: an own property first, then the prototype
chain, else `undefined`. -/
def getProp (table : List (List Char × List Char)) (key : List Char) : JSValue :=
  match table.lookup key with
  | some v => .str v
  | none => if objectPrototypeKeys.contains key then .inherited key else .undefined

/-- Truthiness of a value, as tested by `||`. -/
def truthy : JSValue → Bool
  | .str s => !s.isEmpty
  | .undefined => false
  | .bool b => b
  | .object => true
  | .inherited _ => true

/-- The expression `v || dflt`. -/
def orElse (v : JSValue) (dflt : List Char) : JSValue :=
  if truthy v then v else .str dflt

/-- The text a value takes in a template literal or a string concatenation.
A built-in function is rendered the way V8 does. -/
def toJSString : JSValue → List Char
  | .str s => s
  | .undefined => "undefined".toList
  | .bool b => if b then "true".toList else "false".toList
  | .object => "[object Object]".toList
  | .inherited key =>
    if key = "__proto__".toList then "[object Object]".toList
    else if key = "constructor".toList then
      "function Object() \x7b [native code] \x7d".toList
    else "function ".toList ++ key ++ "() \x7b [native code] \x7d".toList

/-! ## Type tables -/

/-- The object `mapping` of `mapToJavaType`. -/
def javaMapping : List (List Char × List Char) :=
  [("int".toList, "int".toList), ("integer".toList, "int".toList),
   ("string".toList, "String".toList), ("float".toList, "float".toList),
   ("boolean".toList, "boolean".toList), ("bool".toList, "boolean".toList)]

/-- The object `mapping` of `mapToTypeScriptType`. -/
def typeScriptMapping : List (List Char × List Char) :=
  [("int".toList, "number".toList), ("integer".toList, "number".toList),
   ("string".toList, "string".toList), ("float".toList, "number".toList),
   ("boolean".toList, "boolean".toList), ("bool".toList, "boolean".toList)]

/-- The object `defaults` of `getTypeScriptDefault`. -/
def typeScriptDefaults : List (List Char × List Char) :=
  [("number".toList, "0".toList), ("string".toList, "\"\"".toList),
   ("boolean".toList, "false".toList)]

/-- The function `mapToJavaType(type)`; the argument is a string or
`undefined` (`none`), and `undefined.toLowerCase()` raises. -/
def mapToJavaType (type : Option (List Char)) : Except JSError JSValue :=
  match type with
  | none => .error .typeError
  | some t => .ok (orElse (getProp javaMapping (toLowerCase t)) "Object".toList)

/-- The function `mapToTypeScriptType(type)`; the argument is a string or
`undefined` (`none`), and `undefined.toLowerCase()` raises. -/
def mapToTypeScriptType (type : Option (List Char)) : Except JSError JSValue :=
  match type with
  | none => .error .typeError
  | some t => .ok (orElse (getProp typeScriptMapping (toLowerCase t)) "any".toList)

/-- The function `getTypeScriptDefault(type)`; the property key is the text of
the argument. -/
def getTypeScriptDefault (type : JSValue) : JSValue :=
  orElse (getProp typeScriptDefaults (toJSString type)) "undefined".toList

/-! ## Filenames -/

/-- The object `extensions` of `generateFilename`. -/
def extensions : List (List Char × List Char) :=
  [("python".toList, ".py".toList), ("java".toList, ".java".toList),
   ("typescript".toList, ".ts".toList)]

/-- The call `s.replace(/([A-Z])/g, '_$1')`: an underscore before every
capital ASCII letter. -/
def underscoreCapitals (s : List Char) : List Char :=
  s.flatMap (fun c => if c.isUpper then ['_', c] else [c])

/-- The call `s.replace(/^_/, '')`: one leading underscore removed. -/
def stripLeadingUnderscore : List Char → List Char
  | '_' :: cs => cs
  | s => s

/-- The function `generateFilename(className)` for the current language
`lang`. -/
def generateFilename (lang className : List Char) : List Char :=
  if lang = "python".toList then
    stripLeadingUnderscore (underscoreCapitals (toLowerCase className))
      ++ toJSString (getProp extensions lang)
  else
    className ++ toJSString (getProp extensions lang)

/-! ## Sub-generators -/

/-- The text appended by the attribute loop of `generatePythonCode` for one
attribute; a missing type is rendered `undefined`. -/
def pythonFieldLine (attr : List Char) : List Char :=
  let nt := attrNameType attr
  let type := match nt.2 with
    | some t => JSValue.str t
    | none => JSValue.undefined
  "        self._".toList ++ nt.1 ++ " = None  # ".toList ++ toJSString type ++ "\n".toList

/-- The text appended by the method loop of `generatePythonCode` for one
method. -/
def pythonMethodStub (method : List Char) : List Char :=
  let m := methodName method
  "    def ".toList ++ m ++ "(self):\n".toList ++
  "        \"\"\"".toList ++ m ++ " method\"\"\"\n".toList ++
  "        pass\n\n".toList

/-- The function `generatePythonCode(cls)`. -/
def generatePythonCode (cls : ClassDescriptor) : List Char :=
  "\"\"\"".toList ++ cls.name ++ " class\nGenerated from UML model\n\"\"\"\n\n".toList ++
  "class ".toList ++ cls.name ++ ":\n".toList ++
  "    \"\"\"".toList ++ cls.name ++ " class\"\"\"\n\n".toList ++
  "    def __init__(self):\n".toList ++
  "        \"\"\"Initialize the class instance\"\"\"\n".toList ++
  (cls.attributes.map pythonFieldLine).flatten ++
  (if cls.attributes.length = 0 then "        pass\n".toList else []) ++
  "\n".toList ++
  (cls.methods.map pythonMethodStub).flatten

/-- The text appended by the attribute loop of `generateJavaCode` for one
attribute; raises when the attribute has no second segment. -/
def javaFieldLine (attr : List Char) : Except JSError (List Char) :=
  let nt := attrNameType attr
  match mapToJavaType nt.2 with
  | .error e => .error e
  | .ok javaType =>
    .ok ("    private ".toList ++ toJSString javaType ++ " ".toList ++ nt.1 ++ ";\n".toList)

/-- A `forEach` loop that appends one piece of text per element and stops at
the first exception. -/
def appendEach (f : List Char → Except JSError (List Char)) :
    List (List Char) → Except JSError (List Char)
  | [] => .ok []
  | a :: as =>
    match f a with
    | .error e => .error e
    | .ok piece =>
      match appendEach f as with
      | .error e => .error e
      | .ok rest => .ok (piece ++ rest)

/-- The text appended by the method loop of `generateJavaCode` for one
method. -/
def javaMethodStub (method : List Char) : List Char :=
  let m := methodName method
  "    /**\n     * ".toList ++ m ++ " method\n     */\n".toList ++
  "    public void ".toList ++ m ++ "() \x7b\n".toList ++
  "        // TODO: Implement method\n".toList ++
  "    \x7d\n\n".toList

/-- The function `generateJavaCode(cls)`. -/
def generateJavaCode (cls : ClassDescriptor) : Except JSError (List Char) :=
  match appendEach javaFieldLine cls.attributes with
  | .error e => .error e
  | .ok fields =>
    .ok ("/**\n * ".toList ++ cls.name ++ " class\n * Generated from UML model\n */\n".toList ++
      "public class ".toList ++ cls.name ++ " \x7b\n\n".toList ++
      fields ++
      (if cls.attributes.length > 0 then "\n".toList else []) ++
      "    /**\n     * Default constructor for ".toList ++ cls.name ++ "\n     */\n".toList ++
      "    public ".toList ++ cls.name ++ "() \x7b\n".toList ++
      "    \x7d\n\n".toList ++
      (cls.methods.map javaMethodStub).flatten ++
      "\x7d\n".toList)

/-- The text appended by the first attribute loop of `generateTypeScriptCode`
for one attribute. -/
def typeScriptFieldLine (attr : List Char) : Except JSError (List Char) :=
  let nt := attrNameType attr
  match mapToTypeScriptType nt.2 with
  | .error e => .error e
  | .ok tsType =>
    .ok ("  private ".toList ++ nt.1 ++ ": ".toList ++ toJSString tsType ++ ";\n".toList)

/-- The text appended by the constructor loop of `generateTypeScriptCode` for
one attribute. -/
def typeScriptInitLine (attr : List Char) : Except JSError (List Char) :=
  let nt := attrNameType attr
  match mapToTypeScriptType nt.2 with
  | .error e => .error e
  | .ok tsType =>
    .ok ("    this.".toList ++ nt.1 ++ " = ".toList ++
      toJSString (getTypeScriptDefault tsType) ++ ";\n".toList)

/-- The text appended by the method loop of `generateTypeScriptCode` for one
method. -/
def typeScriptMethodStub (method : List Char) : List Char :=
  let m := methodName method
  "  /**\n   * ".toList ++ m ++ " method\n   */\n".toList ++
  "  public ".toList ++ m ++ "(): void \x7b\n".toList ++
  "    // TODO: Implement method\n".toList ++
  "  \x7d\n\n".toList

/-- The function `generateTypeScriptCode(cls)`. -/
def generateTypeScriptCode (cls : ClassDescriptor) : Except JSError (List Char) :=
  match appendEach typeScriptFieldLine cls.attributes with
  | .error e => .error e
  | .ok fields =>
    match appendEach typeScriptInitLine cls.attributes with
    | .error e => .error e
    | .ok inits =>
      .ok ("/**\n * ".toList ++ cls.name ++ " class\n * Generated from UML model\n */\n".toList ++
        "export class ".toList ++ cls.name ++ " \x7b\n".toList ++
        fields ++
        (if cls.attributes.length > 0 then "\n".toList else []) ++
        "  /**\n   * Creates an instance of ".toList ++ cls.name ++ "\n   */\n".toList ++
        "  constructor() \x7b\n".toList ++
        inits ++
        "  \x7d\n\n".toList ++
        (cls.methods.map typeScriptMethodStub).flatten ++
        "\x7d\n".toList)

/-! ## Dispatch and generation -/

/-- The call `generators[key]()` when `key` names a member inherited from
`Object.prototype` instead of a generator: the member is called on the table
without argument.  `Object()` gives a new object, `valueOf()` the table itself,
the three predicates `false`, the two look-ups `undefined`;
`__defineGetter__()` and `__defineSetter__()` reject the missing function, and
`__proto__` is not a function. -/
def callInherited (key : List Char) : Except JSError JSValue :=
  if key = "constructor".toList ∨ key = "valueOf".toList then .ok .object
  else if key = "toString".toList ∨ key = "toLocaleString".toList then
    .ok (.str "[object Object]".toList)
  else if key = "hasOwnProperty".toList ∨ key = "isPrototypeOf".toList
      ∨ key = "propertyIsEnumerable".toList then .ok (.bool false)
  else if key = "__lookupGetter__".toList ∨ key = "__lookupSetter__".toList then
    .ok .undefined
  else .error .typeError

/-- The function `generateClassCode(cls)` for the current language `lang`:
the generator stored under `lang` is called; with no such generator the call
is made on whatever the property read gives, and calling `undefined` raises. -/
def generateClassCode (lang : List Char) (cls : ClassDescriptor) : Except JSError JSValue :=
  if lang = "python".toList then .ok (.str (generatePythonCode cls))
  else if lang = "java".toList then
    match generateJavaCode cls with
    | .error e => .error e
    | .ok code => .ok (.str code)
  else if lang = "typescript".toList then
    match generateTypeScriptCode cls with
    | .error e => .error e
    | .ok code => .ok (.str code)
  else if objectPrototypeKeys.contains lang then callInherited lang
  else .error .typeError

/-- The assignment `files[filename] = code` on the object `files`, kept as the
list of its entries in insertion order: an existing key keeps its place and
takes the new value, a new key goes last.  A filename ends with the text of
`extensions[lang]`, so it is never an array index nor `__proto__`, the keys an
object treats differently. -/
def setProp (files : List (List Char × JSValue)) (filename : List Char) (code : JSValue) :
    List (List Char × JSValue) :=
  match files with
  | [] => [(filename, code)]
  | (k, v) :: rest =>
    if k = filename then (k, code) :: rest
    else (k, v) :: setProp rest filename code

/-- The `classes.forEach` loop of `simulateCodeGeneration`, started with the
entries `files`; the filename is computed before the code, and an exception
ends the loop. -/
def generateFiles (lang : List Char) :
    List ClassDescriptor → List (List Char × JSValue) → Except JSError (List (List Char × JSValue))
  | [], files => .ok files
  | cls :: rest, files =>
    let filename := generateFilename lang cls.name
    match generateClassCode lang cls with
    | .error e => .error e
    | .ok code => generateFiles lang rest (setProp files filename code)

/-- The function `simulateCodeGeneration(modelText)` for the current language
`lang`: the entries of the returned object, or the exception raised. -/
def simulateCodeGeneration (lang modelText : List Char) :
    Except JSError (List (List Char × JSValue)) :=
  generateFiles lang (parseSimpleModel modelText) []

/-- The property read `files[filename]` on the entries of the returned object
(`none` is `undefined`). -/
def getFile : List (List Char × JSValue) → List Char → Option JSValue
  | [], _ => none
  | (k, v) :: rest, filename => if k = filename then some v else getFile rest filename

/-- The languages that have a generator and an extension of their own. -/
def supportedLanguages : List (List Char) :=
  ["python".toList, "java".toList, "typescript".toList]

/-! ## The parser as the specification words it -/

/-- A header line: its trimmed form ends with `:`. -/
def isHeaderLine (line : List Char) : Bool :=
  endsWith (trim line) ':'

/-- A method-classified line: its trimmed form contains both `(` and `)`. -/
def isMethodLine (line : List Char) : Bool :=
  includes (trim line) '(' && includes (trim line) ')'

/-- An attribute-classified line: not method-classified, and its trimmed form
contains `:`. -/
def isAttributeLine (line : List Char) : Bool :=
  !isMethodLine line && includes (trim line) ':'

/-- The lines up to the next header line or the end of the input. -/
def linesUntilHeader (lines : List (List Char)) : List (List Char) :=
  lines.takeWhile (fun l => !isHeaderLine l)

/-- The attribute-classified lines among `lines`, trimmed, in line order. -/
def attributeLines (lines : List (List Char)) : List (List Char) :=
  (lines.filter isAttributeLine).map trim

/-- The method-classified lines among `lines`, trimmed, in line order. -/
def methodLines (lines : List (List Char)) : List (List Char) :=
  (lines.filter isMethodLine).map trim

/-- One class per header line, in line order: its name is the trimmed header
without the final `:`, its attributes and methods are the classified lines
between the header and the next header or the end of the input. -/
def classesByHeader : List (List Char) → List ClassDescriptor
  | [] => []
  | l :: ls =>
    if isHeaderLine l then
      { name := (trim l).dropLast,
        attributes := attributeLines (linesUntilHeader ls),
        methods := methodLines (linesUntilHeader ls) } :: classesByHeader ls
    else classesByHeader ls

/-- The class `c` after one more body line whose trimmed form is `trimmed`,
by the precedence method, attribute, ignored. -/
def addBodyLine (c : ClassDescriptor) (trimmed : List Char) : ClassDescriptor :=
  if includes trimmed '(' && includes trimmed ')' then
    { c with methods := c.methods ++ [trimmed] }
  else if includes trimmed ':' then
    { c with attributes := c.attributes ++ [trimmed] }
  else c

/-! ## The emitter as the specification words it -/

/-- The constructor default by declared type: `0` for a type that lower-cases
to int, integer or float, `""` for string, `false` for boolean or bool,
`undefined` for every other type. -/
def typeScriptDefaultFor (declared : List Char) : List Char :=
  let t := toLowerCase declared
  if t = "int".toList ∨ t = "integer".toList ∨ t = "float".toList then "0".toList
  else if t = "string".toList then "\"\"".toList
  else if t = "boolean".toList ∨ t = "bool".toList then "false".toList
  else "undefined".toList

/-- The declared type of an attribute line: its second `:`-segment, trimmed
(empty when the line has no `:`). -/
def declaredType (attr : List Char) : List Char :=
  (attrNameType attr).2.getD []

/-- The constructor line `this.<name> = <default>;` of an attribute. -/
def typeScriptAssignment (attr : List Char) : List Char :=
  "    this.".toList ++ (attrNameType attr).1 ++ " = ".toList ++
    typeScriptDefaultFor (declaredType attr) ++ ";\n".toList

/-- The initializer line `self._<name> = None  # <type>` of an attribute. -/
def pythonAssignment (attr : List Char) : List Char :=
  "        self._".toList ++ (attrNameType attr).1 ++ " = None  # ".toList ++
    declaredType attr ++ "\n".toList

/-- The class of the example model with one more method line, written with
parameters and a return-type hint. -/
def exampleClass : ClassDescriptor :=
  { name := "User".toList,
    attributes := ["id: int".toList, "username: string".toList],
    methods := ["getId()".toList, "setUsername(name: string): void".toList] }

/-- The text emitted for the example model and the java target. -/
def exampleJavaCode : List Char :=
  "/**\n * User class\n * Generated from UML model\n */\npublic class User \x7b\n\n".toList ++
  "    private int id;\n    private String username;\n\n".toList ++
  "    /**\n     * Default constructor for User\n     */\n".toList ++
  "    public User() \x7b\n    \x7d\n\n".toList ++
  "    /**\n     * getId method\n     */\n".toList ++
  "    public void getId() \x7b\n        // TODO: Implement method\n    \x7d\n\n\x7d\n".toList

/-! ## Validation -/

/-- The status `validateModel` shows: the warning for an empty input, the
success message with its two counts, the warning `No classes found in model`,
or the message for the formats that are not checked. -/
inductive ValidationReport
  | enterModel
  | valid (classCount methodCount : Nat)
  | noClassesFound
  | syntaxAppearsValid
  deriving DecidableEq, Repr

/-- The function `validateModel()` for the current format `format`; `value` is
the content of the text area. -/
def validateModel (format value : List Char) : ValidationReport :=
  let modelText := trim value
  if modelText = [] then .enterModel
  else
    let lines := (split '\n' modelText).filter (fun line => !(trim line).isEmpty)
    if format = "simple".toList then
      let classCount := (lines.filter (fun line => endsWith line ':')).length
      let methodCount :=
        (lines.filter (fun line => includes line '(' && includes line ')')).length
      if classCount > 0 then .valid classCount methodCount else .noClassesFound
    else .syntaxAppearsValid

/-- A model whose header line has a blank after the `:`. -/
def headerWithTrailingBlank : List Char :=
  "User: \n  id: int".toList

/-! ## Lemmas on strings and on the parser -/

theorem split_ne_nil (sep : Char) (s : List Char) : split sep s ≠ [] := by
  induction s with
  | nil => simp [split]
  | cons c cs ih =>
    simp only [split]
    split_ifs
    · simp
    · cases h : split sep cs <;> simp

theorem split_append_sep (sep : Char) (a b : List Char) :
    split sep (a ++ sep :: b) = split sep a ++ split sep b := by
  induction a with
  | nil => simp [split]
  | cons c cs ih =>
    simp only [List.cons_append, split]
    split_ifs with h
    · simp [ih]
    · have ih2 : split sep (cs.append (sep :: b)) = split sep cs ++ split sep b := ih
      rw [ih2]
      cases h2 : split sep cs with
      | nil => exact absurd h2 (split_ne_nil sep cs)
      | cons p ps => simp

theorem split_of_not_mem (sep : Char) (s : List Char) (h : sep ∉ s) :
    split sep s = [s] := by
  induction s with
  | nil => simp [split]
  | cons c cs ih =>
    simp only [List.mem_cons, not_or] at h
    simp only [split]
    rw [if_neg (fun e => h.1 e.symm), ih h.2]

theorem trim_nil_includes (c : Char) (l : List Char) (h : trim l = []) :
    includes (trim l) c = false := by
  rw [h]; rfl

theorem parseLine_header (st : ParseState) (l : List Char) (h : isHeaderLine l = true) :
    parseLine st l =
      { classes := pushCurrent st,
        currentClass := some { name := (trim l).dropLast, attributes := [], methods := [] } } := by
  unfold isHeaderLine at h
  simp [parseLine, h]

theorem parseLine_closed (cs : List ClassDescriptor) (l : List Char)
    (h : isHeaderLine l = false) :
    parseLine { classes := cs, currentClass := none } l =
      { classes := cs, currentClass := none } := by
  unfold isHeaderLine at h
  simp [parseLine, h]

theorem parseLine_open (cs : List ClassDescriptor) (c : ClassDescriptor) (l : List Char)
    (h : isHeaderLine l = false) :
    parseLine { classes := cs, currentClass := some c } l =
      { classes := cs, currentClass := some (addBodyLine c (trim l)) } := by
  unfold isHeaderLine at h
  by_cases ht : trim l = []
  · rw [ht] at h
    simp [parseLine, h, ht, addBodyLine, includes]
  · simp only [parseLine, h, addBodyLine]
    simp only [Bool.false_eq_true, if_false, ne_eq, ht, not_false_eq_true, if_true]
    split_ifs <;> rfl


theorem addBodyLine_eq (c : ClassDescriptor) (l : List Char) :
    addBodyLine c (trim l) =
      { name := c.name,
        attributes := c.attributes ++ attributeLines [l],
        methods := c.methods ++ methodLines [l] } := by
  unfold addBodyLine attributeLines methodLines isAttributeLine isMethodLine
  by_cases hm : (includes (trim l) '(' && includes (trim l) ')') = true
  · simp [hm, List.filter]
  · by_cases ha : includes (trim l) ':' = true
    · simp [hm, ha, List.filter]
    · simp [hm, ha, List.filter]

theorem attributeLines_cons (l : List Char) (ls : List (List Char)) :
    attributeLines (l :: ls) = attributeLines [l] ++ attributeLines ls := by
  unfold attributeLines
  rw [← List.map_append, ← List.filter_append]; rfl

theorem methodLines_cons (l : List Char) (ls : List (List Char)) :
    methodLines (l :: ls) = methodLines [l] ++ methodLines ls := by
  unfold methodLines
  rw [← List.map_append, ← List.filter_append]; rfl

theorem foldl_parseLine_open (lines : List (List Char)) :
    ∀ (cs : List ClassDescriptor) (c : ClassDescriptor),
      pushCurrent (lines.foldl parseLine { classes := cs, currentClass := some c }) =
        cs ++ { name := c.name,
                attributes := c.attributes ++ attributeLines (linesUntilHeader lines),
                methods := c.methods ++ methodLines (linesUntilHeader lines) }
          :: classesByHeader lines := by
  induction lines with
  | nil =>
    intro cs c
    simp [pushCurrent, linesUntilHeader, attributeLines, methodLines, classesByHeader]
  | cons l ls ih =>
    intro cs c
    rw [List.foldl_cons]
    by_cases h : isHeaderLine l = true
    · rw [parseLine_header _ _ h, ih]
      simp [pushCurrent, linesUntilHeader, h, attributeLines, methodLines, classesByHeader]
    · have h2 : isHeaderLine l = false := by simpa using h
      rw [parseLine_open _ _ _ h2, ih, addBodyLine_eq]
      have hu : linesUntilHeader (l :: ls) = l :: linesUntilHeader ls := by
        simp [linesUntilHeader, h2]
      rw [hu, attributeLines_cons l (linesUntilHeader ls), methodLines_cons l (linesUntilHeader ls)]
      simp [classesByHeader, h2, List.append_assoc]

theorem foldl_parseLine_closed (lines : List (List Char)) :
    pushCurrent (lines.foldl parseLine { classes := [], currentClass := none }) =
      classesByHeader lines := by
  induction lines with
  | nil => rfl
  | cons l ls ih =>
    rw [List.foldl_cons]
    by_cases h : isHeaderLine l = true
    · rw [parseLine_header _ _ h, foldl_parseLine_open]
      simp [pushCurrent, classesByHeader, h]
    · have h2 : isHeaderLine l = false := by simpa using h
      rw [parseLine_closed _ _ h2, ih]
      simp [classesByHeader, h2]

theorem parseSimpleModel_eq (modelText : List Char) :
    parseSimpleModel modelText = classesByHeader (split '\n' modelText) :=
  foldl_parseLine_closed _

theorem classesByHeader_names (lines : List (List Char)) :
    (classesByHeader lines).map ClassDescriptor.name =
      ((lines.map trim).filter (fun t => endsWith t ':')).map List.dropLast := by
  induction lines with
  | nil => rfl
  | cons l ls ih =>
    by_cases h : isHeaderLine l = true
    · have h3 : endsWith (trim l) ':' = true := h
      simp [classesByHeader, h, List.filter, h3, ih]
    · have h2 : isHeaderLine l = false := by simpa using h
      have h3 : endsWith (trim l) ':' = false := h2
      simp [classesByHeader, h2, List.filter, h3, ih]


theorem parseLine_inv (st : ParseState) (l : List Char)
    (h : st.currentClass = none → st.classes = []) :
    (parseLine st l).currentClass = none → (parseLine st l).classes = [] := by
  by_cases hh : isHeaderLine l = true
  · rw [parseLine_header _ _ hh]; simp
  · have h2 : isHeaderLine l = false := by simpa using hh
    obtain ⟨cs, cur⟩ := st
    cases cur with
    | none => rw [parseLine_closed _ _ h2]; exact h
    | some c => rw [parseLine_open _ _ _ h2]; simp

theorem foldl_parseLine_inv (lines : List (List Char)) :
    ∀ st : ParseState, (st.currentClass = none → st.classes = []) →
      (lines.foldl parseLine st).currentClass = none →
      (lines.foldl parseLine st).classes = [] := by
  induction lines with
  | nil => intro st h; exact h
  | cons l ls ih =>
    intro st h
    rw [List.foldl_cons]
    exact ih _ (parseLine_inv st l h)

theorem pushCurrent_eq_append (st : ParseState)
    (h : st.currentClass = none → st.classes = [])
    (cs : List ClassDescriptor) (c : ClassDescriptor)
    (hp : pushCurrent st = cs ++ [c]) :
    st = { classes := cs, currentClass := some c } := by
  obtain ⟨cls, cur⟩ := st
  cases cur with
  | none =>
    have h0 : cls = [] := h rfl
    simp [pushCurrent, h0] at hp
  | some c0 =>
    simp only [pushCurrent] at hp
    have := List.append_inj' hp rfl
    simp at this
    simp [this.1, this.2]

theorem parseSimpleModel_append_line (t l : List Char) (hl : '\n' ∉ l) :
    parseSimpleModel (t ++ '\n' :: l) =
      pushCurrent (parseLine
        ((split '\n' t).foldl parseLine { classes := [], currentClass := none }) l) := by
  unfold parseSimpleModel
  simp only [split_append_sep, split_of_not_mem _ _ hl, List.foldl_append, List.foldl_cons,
    List.foldl_nil]


/-! ## Lemmas on the emitter -/

theorem toLower_not_isUpper (c : Char) : c.toLower.isUpper = false := by
  by_cases h : c.isUpper = true
  · have hc : c = Char.ofNat c.toNat := (Char.ofNat_toNat c).symm
    have hb : 65 ≤ c.toNat ∧ c.toNat ≤ 90 := by
      simp only [Char.isUpper, Bool.and_eq_true, decide_eq_true_eq] at h
      exact ⟨h.1, h.2⟩
    obtain ⟨h1, h2⟩ := hb
    generalize c.toNat = n at hc h1 h2
    subst hc
    interval_cases n <;> decide
  · have h2 : c.isUpper = false := by simpa using h
    have : c.toLower = c := by
      simp only [Char.isUpper, Bool.and_eq_false_iff, decide_eq_false_iff_not] at h2
      unfold Char.toLower
      rw [if_neg]
      rintro ⟨a, b⟩
      rcases h2 with h3 | h3
      · exact h3 a
      · exact h3 b
    rw [this, h2]

theorem ofNat_not_isUpper (m : Nat) (h : 90 < m) : (Char.ofNat m).isUpper = false := by
  by_cases hv : m.isValidChar
  · have hn : (Char.ofNat m).val.toNat = m := by
      simp only [Char.ofNat, hv, dif_pos]
      rfl
    simp only [Char.isUpper, Bool.and_eq_false_iff, decide_eq_false_iff_not]
    right
    intro hle
    have h2 : (Char.ofNat m).val.toNat ≤ 90 := hle
    omega
  · simp only [Char.ofNat, hv, dif_neg, not_false_eq_true]
    decide

theorem lowerCaseRanges_image : ∀ r ∈ lowerCaseRanges, 90 < r.2.2.2 := by
  decide!

theorem lowerChar_not_isUpper (c : Char) : ∀ d ∈ lowerChar c, d.isUpper = false := by
  intro d hd
  unfold lowerChar at hd
  simp only at hd
  split_ifs at hd with h1 h2
  · simp only [List.mem_singleton] at hd
    subst hd
    exact toLower_not_isUpper c
  · simp only [List.mem_cons, List.mem_singleton, List.not_mem_nil, or_false] at hd
    rcases hd with rfl | rfl <;> decide
  · split at hd
    · rename_i r hr
      simp only [List.mem_singleton] at hd
      subst hd
      have hmem := List.mem_of_find?_eq_some hr
      exact ofNat_not_isUpper _ (Nat.lt_of_lt_of_le (lowerCaseRanges_image r hmem)
        (Nat.le_add_right _ _))
    · simp only [List.mem_singleton] at hd
      subst hd
      simp only [Char.isUpper, Bool.and_eq_false_iff, decide_eq_false_iff_not]
      right
      intro hle
      have h3 : d.val.toNat ≤ 90 := hle
      have h4 : ¬ d.val.toNat < 128 := h1
      omega

theorem lowerFrom_not_isUpper (s : List Char) :
    ∀ before, ∀ d ∈ lowerFrom before s, d.isUpper = false := by
  induction s with
  | nil => intro before d hd; simp [lowerFrom] at hd
  | cons c cs ih =>
    intro before d hd
    simp only [lowerFrom, List.mem_append] at hd
    rcases hd with hd | hd
    · split_ifs at hd with h1 h2
      · simp only [List.mem_singleton] at hd
        subst hd; decide
      · simp only [List.mem_singleton] at hd
        subst hd; decide
      · exact lowerChar_not_isUpper c d hd
    · exact ih _ d hd

theorem underscoreCapitals_of_no_upper (s : List Char) (h : ∀ d ∈ s, d.isUpper = false) :
    underscoreCapitals s = s := by
  induction s with
  | nil => rfl
  | cons c cs ih =>
    have hc := h c (List.mem_cons_self _ _)
    have hr := ih (fun d hd => h d (List.mem_cons_of_mem _ hd))
    simp only [underscoreCapitals, List.flatMap_cons] at hr ⊢
    rw [hr, hc]
    rfl

theorem underscoreCapitals_toLowerCase (s : List Char) :
    underscoreCapitals (toLowerCase s) = toLowerCase s :=
  underscoreCapitals_of_no_upper _ (lowerFrom_not_isUpper s [])

theorem generateFilename_python_eq (className : List Char) :
    generateFilename "python".toList className =
      stripLeadingUnderscore (toLowerCase className) ++ ".py".toList := by
  simp only [generateFilename, if_true, underscoreCapitals_toLowerCase]
  rfl


theorem split_of_mem (sep : Char) (s : List Char) (h : sep ∈ s) :
    ∃ p q rest, split sep s = p :: q :: rest := by
  induction s with
  | nil => simp at h
  | cons c cs ih =>
    simp only [split]
    by_cases hc : c = sep
    · rw [if_pos hc]
      cases h2 : split sep cs with
      | nil => exact absurd h2 (split_ne_nil sep cs)
      | cons p ps => exact ⟨[], p, ps, rfl⟩
    · rw [if_neg hc]
      have hm : sep ∈ cs := by
        rcases List.mem_cons.mp h with h1 | h1
        · exact absurd h1.symm hc
        · exact h1
      obtain ⟨p, q, rest, he⟩ := ih hm
      rw [he]
      exact ⟨c :: p, q, rest, rfl⟩

theorem attrNameType_snd_of_includes (attr : List Char) (h : includes attr ':' = true) :
    ∃ t, (attrNameType attr).2 = some t := by
  have hm : ':' ∈ attr := by simpa [includes] using h
  obtain ⟨p, q, rest, he⟩ := split_of_mem ':' attr hm
  exact ⟨trim q, by simp [attrNameType, he]⟩

theorem appendEach_ok (f : List Char → Except JSError (List Char)) (as : List (List Char))
    (h : ∀ a ∈ as, ∃ piece, f a = .ok piece) :
    ∃ text, appendEach f as = .ok text := by
  induction as with
  | nil => exact ⟨[], rfl⟩
  | cons a as ih =>
    obtain ⟨piece, hp⟩ := h a (List.mem_cons_self _ _)
    obtain ⟨rest, hr⟩ := ih (fun b hb => h b (List.mem_cons_of_mem _ hb))
    exact ⟨piece ++ rest, by simp [appendEach, hp, hr]⟩

theorem javaFieldLine_ok (attr : List Char) (h : includes attr ':' = true) :
    ∃ piece, javaFieldLine attr = .ok piece := by
  obtain ⟨t, ht⟩ := attrNameType_snd_of_includes attr h
  simp [javaFieldLine, ht, mapToJavaType]

theorem typeScriptFieldLine_ok (attr : List Char) (h : includes attr ':' = true) :
    ∃ piece, typeScriptFieldLine attr = .ok piece := by
  obtain ⟨t, ht⟩ := attrNameType_snd_of_includes attr h
  simp [typeScriptFieldLine, ht, mapToTypeScriptType]

theorem typeScriptInitLine_ok (attr : List Char) (h : includes attr ':' = true) :
    ∃ piece, typeScriptInitLine attr = .ok piece := by
  obtain ⟨t, ht⟩ := attrNameType_snd_of_includes attr h
  simp [typeScriptInitLine, ht, mapToTypeScriptType]

theorem generateClassCode_ok (lang : List Char) (cls : ClassDescriptor)
    (hlang : lang ∈ supportedLanguages)
    (h : ∀ a ∈ cls.attributes, includes a ':' = true) :
    ∃ code, generateClassCode lang cls = .ok (.str code) := by
  simp only [supportedLanguages, List.mem_cons, List.mem_singleton, List.not_mem_nil,
    or_false] at hlang
  rcases hlang with rfl | rfl | rfl
  · exact ⟨generatePythonCode cls, by simp [generateClassCode]⟩
  · obtain ⟨fields, hf⟩ := appendEach_ok javaFieldLine cls.attributes
      (fun a ha => javaFieldLine_ok a (h a ha))
    have h1 : ("java".toList = "python".toList) = False := by decide
    have hj : ∃ code, generateJavaCode cls = .ok code := by
      simp only [generateJavaCode, hf]; exact ⟨_, rfl⟩
    obtain ⟨code, hc⟩ := hj
    exact ⟨code, by simp only [generateClassCode, h1, if_false, if_true, hc]⟩
  · obtain ⟨fields, hf⟩ := appendEach_ok typeScriptFieldLine cls.attributes
      (fun a ha => typeScriptFieldLine_ok a (h a ha))
    obtain ⟨inits, hi⟩ := appendEach_ok typeScriptInitLine cls.attributes
      (fun a ha => typeScriptInitLine_ok a (h a ha))
    have h1 : ("typescript".toList = "python".toList) = False := by decide
    have h2 : ("typescript".toList = "java".toList) = False := by decide
    have hj : ∃ code, generateTypeScriptCode cls = .ok code := by
      simp only [generateTypeScriptCode, hf, hi]; exact ⟨_, rfl⟩
    obtain ⟨code, hc⟩ := hj
    exact ⟨code, by simp only [generateClassCode, h1, h2, if_false, if_true, hc]⟩

theorem classesByHeader_attributes (lines : List (List Char)) :
    ∀ c ∈ classesByHeader lines, ∀ a ∈ c.attributes, includes a ':' = true := by
  induction lines with
  | nil => intro c hc; simp [classesByHeader] at hc
  | cons l ls ih =>
    intro c hc
    simp only [classesByHeader] at hc
    split_ifs at hc with hh
    · rcases List.mem_cons.mp hc with rfl | hc2
      · intro a ha
        simp only [attributeLines, List.mem_map, List.mem_filter] at ha
        obtain ⟨x, ⟨_, hx⟩, rfl⟩ := ha
        simp only [isAttributeLine, Bool.and_eq_true] at hx
        exact hx.2
      · exact ih c hc2
    · exact ih c hc


theorem getFile_setProp_self (files : List (List Char × JSValue)) (k : List Char) (v : JSValue) :
    getFile (setProp files k v) k = some v := by
  induction files with
  | nil => simp only [setProp, getFile, if_true]
  | cons e rest ih =>
    obtain ⟨k0, v0⟩ := e
    simp only [setProp]
    split_ifs with h
    · simp only [getFile, h, if_true]
    · simp only [getFile, h, if_false, ih]

theorem getFile_setProp_ne (files : List (List Char × JSValue)) (k k2 : List Char) (v : JSValue)
    (hne : k ≠ k2) :
    getFile (setProp files k v) k2 = getFile files k2 := by
  induction files with
  | nil => simp only [setProp, getFile, hne, if_false]
  | cons e rest ih =>
    obtain ⟨k0, v0⟩ := e
    simp only [setProp]
    split_ifs with h
    · subst h
      simp only [getFile, hne, if_false]
    · by_cases h2 : k0 = k2
      · simp only [getFile, h2, if_true]
      · simp only [getFile, h2, if_false, ih]

theorem setProp_keys (files : List (List Char × JSValue)) (k : List Char) (v : JSValue) :
    (setProp files k v).map Prod.fst =
      if k ∈ files.map Prod.fst then files.map Prod.fst else files.map Prod.fst ++ [k] := by
  induction files with
  | nil => simp [setProp]
  | cons e rest ih =>
    obtain ⟨k0, v0⟩ := e
    simp only [setProp]
    by_cases h : k0 = k
    · simp [h]
    · have h2 : ¬ k = k0 := fun e => h e.symm
      simp only [h, if_false, List.map_cons, ih, List.mem_cons, h2, false_or]
      split_ifs <;> simp

theorem setProp_keys_nodup (files : List (List Char × JSValue)) (k : List Char) (v : JSValue)
    (h : (files.map Prod.fst).Nodup) : ((setProp files k v).map Prod.fst).Nodup := by
  rw [setProp_keys]
  split_ifs with hk
  · exact h
  · exact List.Nodup.append h (List.nodup_singleton k) (by simpa using hk)

theorem getFile_mem_keys (files : List (List Char × JSValue)) (k : List Char) (v : JSValue)
    (h : getFile files k = some v) : k ∈ files.map Prod.fst := by
  induction files with
  | nil => simp [getFile] at h
  | cons e rest ih =>
    obtain ⟨k0, v0⟩ := e
    simp only [getFile] at h
    split_ifs at h with h2
    · simp [h2]
    · simp [ih h]

theorem filter_key_length (files : List (List Char × JSValue)) (k : List Char)
    (hn : (files.map Prod.fst).Nodup) (hk : k ∈ files.map Prod.fst) :
    (files.filter (fun e => e.1 = k)).length = 1 := by
  induction files with
  | nil => simp at hk
  | cons e rest ih =>
    obtain ⟨k0, v0⟩ := e
    simp only [List.map_cons, List.nodup_cons] at hn
    by_cases h : k0 = k
    · subst h
      have hnone : rest.filter (fun e => e.1 = k0) = [] := by
        rw [List.filter_eq_nil_iff]
        intro e he
        have : e.1 ∈ rest.map Prod.fst := List.mem_map_of_mem _ he
        simp only [decide_eq_true_eq]
        intro h2
        exact hn.1 (h2 ▸ this)
      simp [List.filter, hnone]
    · have hk2 : k ∈ rest.map Prod.fst := by
        rcases List.mem_cons.mp hk with h1 | h1
        · exact absurd h1.symm h
        · exact h1
      simp [List.filter, h, ih hn.2 hk2]

theorem generateFiles_ok (lang : List Char) (cs : List ClassDescriptor)
    (h : ∀ c ∈ cs, ∃ v, generateClassCode lang c = .ok v) :
    ∀ files, ∃ out, generateFiles lang cs files = .ok out := by
  induction cs with
  | nil => intro files; exact ⟨files, rfl⟩
  | cons c rest ih =>
    intro files
    obtain ⟨v, hv⟩ := h c (List.mem_cons_self _ _)
    simp only [generateFiles, hv]
    exact ih (fun d hd => h d (List.mem_cons_of_mem _ hd)) _

theorem generateFiles_nodup (lang : List Char) (cs : List ClassDescriptor) :
    ∀ files out, generateFiles lang cs files = .ok out →
      (files.map Prod.fst).Nodup → (out.map Prod.fst).Nodup := by
  induction cs with
  | nil =>
    intro files out h hn
    simp only [generateFiles, Except.ok.injEq] at h
    exact h ▸ hn
  | cons c rest ih =>
    intro files out h hn
    simp only [generateFiles] at h
    cases hv : generateClassCode lang c with
    | error e => simp [hv] at h
    | ok v =>
      simp only [hv] at h
      exact ih _ _ h (setProp_keys_nodup _ _ _ hn)

theorem generateFiles_getFile_other (lang : List Char) (cs : List ClassDescriptor)
    (k : List Char) (hk : ∀ d ∈ cs, generateFilename lang d.name ≠ k) :
    ∀ files out, generateFiles lang cs files = .ok out → getFile out k = getFile files k := by
  induction cs with
  | nil =>
    intro files out h
    simp only [generateFiles, Except.ok.injEq] at h
    rw [h]
  | cons c rest ih =>
    intro files out h
    simp only [generateFiles] at h
    cases hv : generateClassCode lang c with
    | error e => simp [hv] at h
    | ok v =>
      simp only [hv] at h
      rw [ih (fun d hd => hk d (List.mem_cons_of_mem _ hd)) _ _ h]
      exact getFile_setProp_ne _ _ _ _ (hk c (List.mem_cons_self _ _))

theorem generateFiles_getFile_last (lang : List Char) (pre : List ClassDescriptor)
    (c : ClassDescriptor) (post : List ClassDescriptor) (code : JSValue)
    (hc : generateClassCode lang c = .ok code)
    (hpost : ∀ d ∈ post, generateFilename lang d.name ≠ generateFilename lang c.name) :
    ∀ files out, generateFiles lang (pre ++ c :: post) files = .ok out →
      getFile out (generateFilename lang c.name) = some code := by
  induction pre with
  | nil =>
    intro files out h
    simp only [List.nil_append, generateFiles, hc] at h
    rw [generateFiles_getFile_other lang post _ hpost _ _ h]
    exact getFile_setProp_self _ _ _
  | cons p rest ih =>
    intro files out h
    simp only [List.cons_append, generateFiles] at h
    cases hv : generateClassCode lang p with
    | error e => simp [hv] at h
    | ok v =>
      simp only [hv] at h
      exact ih _ _ h


/-! ## The claims -/

/-- C1: the example model parses to exactly one class named `User`, whose
attributes read as (name, type) pairs are (id, int), (username, string) in that
order and whose only method is named `getId`. -/
theorem parseSimpleModel_example :
    parseSimpleModel exampleModel =
      [{ name := "User".toList,
         attributes := ["id: int".toList, "username: string".toList],
         methods := ["getId()".toList] }] ∧
    (parseSimpleModel exampleModel).map
        (fun c => (c.name, c.attributes.map attrNameType, c.methods.map methodName)) =
      [("User".toList,
        [("id".toList, some "int".toList), ("username".toList, some "string".toList)],
        ["getId".toList])] :=
  ⟨by decide, by rfl⟩

/-- C2: for every model text the names of the classes returned by
`parseSimpleModel`, in order, are the lines whose trimmed form ends with `:`,
trimmed and without that final `:`, in line order; the class of the last header
is among them. -/
theorem parseSimpleModel_names (modelText : List Char) :
    (parseSimpleModel modelText).map ClassDescriptor.name =
      (((split '\n' modelText).map trim).filter (fun t => endsWith t ':')).map
        List.dropLast := by
  rw [parseSimpleModel_eq]
  exact classesByHeader_names _

/-- C3: a line inside an open class whose trimmed form does not end with `:`
is added to the methods of that class when it contains both `(` and `)`, also
when it contains `:`; otherwise to its attributes when it contains `:`;
otherwise to neither list. -/
theorem parseSimpleModel_body_line_precedence (t l : List Char) (cs : List ClassDescriptor) (c : ClassDescriptor)
    (hopen : parseSimpleModel t = cs ++ [c]) (hl : '\n' ∉ l)
    (hh : endsWith (trim l) ':' = false) :
    ((includes (trim l) '(' = true ∧ includes (trim l) ')' = true) →
      parseSimpleModel (t ++ '\n' :: l) =
        cs ++ [{ c with methods := c.methods ++ [trim l] }]) ∧
    (¬ (includes (trim l) '(' = true ∧ includes (trim l) ')' = true) →
      includes (trim l) ':' = true →
      parseSimpleModel (t ++ '\n' :: l) =
        cs ++ [{ c with attributes := c.attributes ++ [trim l] }]) ∧
    (¬ (includes (trim l) '(' = true ∧ includes (trim l) ')' = true) →
      includes (trim l) ':' = false →
      parseSimpleModel (t ++ '\n' :: l) = cs ++ [c]) := by
  have hst := pushCurrent_eq_append _
    (foldl_parseLine_inv (split '\n' t) _ (fun _ => rfl)) cs c hopen
  rw [parseSimpleModel_append_line t l hl, hst, parseLine_open _ _ _ hh]
  simp only [pushCurrent, addBodyLine]
  refine ⟨?_, ?_, ?_⟩
  · rintro ⟨h1, h2⟩; simp [h1, h2]
  · intro h1 h2
    have : (includes (trim l) '(' && includes (trim l) ')') = false := by
      simpa using h1
    simp [this, h2]
  · intro h1 h2
    have : (includes (trim l) '(' && includes (trim l) ')') = false := by
      simpa using h1
    simp [this, h2]

/-- Witness of C3: the line `setUsername(name: string)` after `User:` and
`id: int` becomes a method although it contains `:`. -/
theorem parseSimpleModel_body_line_precedence_witness :
    parseSimpleModel "User:\n  id: int".toList =
        [] ++ [{ name := "User".toList, attributes := ["id: int".toList], methods := [] }] ∧
    '\n' ∉ "  setUsername(name: string)".toList ∧
    endsWith (trim "  setUsername(name: string)".toList) ':' = false ∧
    parseSimpleModel ("User:\n  id: int".toList ++ '\n' :: "  setUsername(name: string)".toList) =
      [] ++ [{ name := "User".toList, attributes := ["id: int".toList],
               methods := [] ++ [trim "  setUsername(name: string)".toList] }] :=
  ⟨by decide, by decide, by decide,
    (parseSimpleModel_body_line_precedence "User:\n  id: int".toList
      "  setUsername(name: string)".toList []
      { name := "User".toList, attributes := ["id: int".toList], methods := [] }
      (by decide) (by decide) (by decide)).1 ⟨by decide, by decide⟩⟩

/-- C4, as stated, fails: the line `run():` contains parentheses and still
opens a class, named `run()`. -/
theorem parseSimpleModel_header_with_parentheses :
    includes (trim "run():".toList) '(' = true ∧
    parseSimpleModel "A:\nrun():".toList =
      [{ name := "A".toList, attributes := [], methods := [] },
       { name := "run()".toList, attributes := [], methods := [] }] := by
  decide

/-- C4, amended: a line appended to a text opens a new class, named by its
trimmed form without the final `:`, exactly when its trimmed form ends with
`:`, with or without parentheses; any other line leaves the sequence of class
names as it was. -/
theorem parseSimpleModel_header_iff_colon (t l : List Char) (hl : '\n' ∉ l) :
    (endsWith (trim l) ':' = true →
      parseSimpleModel (t ++ '\n' :: l) =
        parseSimpleModel t ++ [{ name := (trim l).dropLast, attributes := [], methods := [] }]) ∧
    (endsWith (trim l) ':' = false →
      (parseSimpleModel (t ++ '\n' :: l)).map ClassDescriptor.name =
        (parseSimpleModel t).map ClassDescriptor.name) := by
  rw [parseSimpleModel_append_line t l hl]
  constructor
  · intro h
    rw [parseLine_header _ _ h]
    rfl
  · intro h
    have key : ∀ st : ParseState,
        (pushCurrent (parseLine st l)).map ClassDescriptor.name =
          (pushCurrent st).map ClassDescriptor.name := by
      intro st
      obtain ⟨cls, cur⟩ := st
      cases cur with
      | none => rw [parseLine_closed _ _ h]
      | some c =>
        rw [parseLine_open _ _ _ h]
        simp only [pushCurrent, addBodyLine]
        split_ifs <;> simp
    exact key _

/-- Witness of C4, amended, at the text `A:` and the line `run():`. -/
theorem parseSimpleModel_header_iff_colon_witness :
    '\n' ∉ "run():".toList ∧
    parseSimpleModel ("A:".toList ++ '\n' :: "run():".toList) =
      parseSimpleModel "A:".toList ++
        [{ name := (trim "run():".toList).dropLast, attributes := [], methods := [] }] :=
  ⟨by decide,
    (parseSimpleModel_header_iff_colon "A:".toList "run():".toList (by decide)).1 (by decide)⟩

/-- C5: the classes returned by `parseSimpleModel` are, header by header, the
attribute-classified and the method-classified lines lying between the header
and the next header or the end of the input, in line order, duplicates kept. -/
theorem parseSimpleModel_eq_classesByHeader (modelText : List Char) :
    parseSimpleModel modelText = classesByHeader (split '\n' modelText) :=
  foldl_parseLine_closed _

/-- C6, at the failing input: for the python target the class name
`UserAccount` gives `useraccount.py`, not `user_account.py`. -/
theorem generateFilename_python_UserAccount :
    generateFilename "python".toList "UserAccount".toList = "useraccount.py".toList ∧
    generateFilename "python".toList "UserAccount".toList ≠ "user_account.py".toList := by
  decide

/-- C7: for the java and the typescript target the filename is the class name
unchanged followed by `.java`, respectively `.ts`. -/
theorem generateFilename_java_typescript (className : List Char) :
    generateFilename "java".toList className = className ++ ".java".toList ∧
    generateFilename "typescript".toList className = className ++ ".ts".toList := by
  constructor <;> rfl

/-- C8: for a supported target, when `c` is the last class of the model with
its filename, `simulateCodeGeneration` returns a mapping without raising, the
mapping has exactly one entry for that filename, and the value of the entry is
the code generated for `c`, whatever classes with the same filename come
before. -/
theorem simulateCodeGeneration_last_write_wins (lang text : List Char) (pre : List ClassDescriptor) (c : ClassDescriptor)
    (post : List ClassDescriptor)
    (hlang : lang ∈ supportedLanguages)
    (hparse : parseSimpleModel text = pre ++ c :: post)
    (hlast : ∀ d ∈ post, generateFilename lang d.name ≠ generateFilename lang c.name) :
    ∃ files code,
      simulateCodeGeneration lang text = .ok files ∧
      generateClassCode lang c = .ok (.str code) ∧
      (files.filter (fun e => e.1 = generateFilename lang c.name)).length = 1 ∧
      getFile files (generateFilename lang c.name) = some (.str code) := by
  have hattr : ∀ d ∈ parseSimpleModel text, ∀ a ∈ d.attributes, includes a ':' = true := by
    rw [parseSimpleModel_eq]
    exact classesByHeader_attributes _
  have hall : ∀ d ∈ parseSimpleModel text, ∃ v, generateClassCode lang d = .ok v := by
    intro d hd
    obtain ⟨code, h⟩ := generateClassCode_ok lang d hlang (hattr d hd)
    exact ⟨_, h⟩
  obtain ⟨files, hfiles⟩ := generateFiles_ok lang _ hall []
  have hcmem : c ∈ parseSimpleModel text := by rw [hparse]; simp
  obtain ⟨code, hcode⟩ := generateClassCode_ok lang c hlang (hattr c hcmem)
  have hget : getFile files (generateFilename lang c.name) = some (.str code) := by
    rw [hparse] at hfiles
    exact generateFiles_getFile_last lang pre c post _ hcode hlast _ _ hfiles
  refine ⟨files, code, hfiles, hcode, ?_, hget⟩
  exact filter_key_length _ _ (generateFiles_nodup lang _ _ _ hfiles (by simp))
    (getFile_mem_keys _ _ _ hget)

/-- C9, as stated, fails: with the unknown target `ruby` the empty model gives
the empty mapping without any error, and `generateFilename` returns a filename
built from the unknown target. -/
theorem simulateCodeGeneration_unknown_target_empty :
    simulateCodeGeneration "ruby".toList "".toList = .ok [] ∧
    generateFilename "ruby".toList "User".toList = "Userundefined".toList := by
  decide

/-- C9, amended: for a target that is none of python, java, typescript and
names no member of `Object.prototype`, nothing is rejected up front:
`generateFilename` returns the class name followed by `undefined`,
`generateClassCode` raises for every class, and `simulateCodeGeneration`
returns the empty mapping when the model has no class and raises when it has
one. -/
theorem unknown_target_not_rejected_up_front (lang : List Char) (hlang : lang ∉ supportedLanguages)
    (hproto : lang ∉ objectPrototypeKeys) :
    (∀ className, generateFilename lang className = className ++ "undefined".toList) ∧
    (∀ cls, generateClassCode lang cls = .error .typeError) ∧
    (∀ text, parseSimpleModel text = [] → simulateCodeGeneration lang text = .ok []) ∧
    (∀ text, parseSimpleModel text ≠ [] →
      simulateCodeGeneration lang text = .error .typeError) := by
  simp only [supportedLanguages, List.mem_cons, List.mem_singleton, List.not_mem_nil,
    or_false, not_or] at hlang
  obtain ⟨hp, hj, ht⟩ := hlang
  have hcont : objectPrototypeKeys.contains lang = false := by
    simpa using hproto
  have hcode : ∀ cls, generateClassCode lang cls = .error .typeError := by
    intro cls
    simp only [generateClassCode, if_neg hp, if_neg hj, if_neg ht, hcont]
    rfl
  refine ⟨?_, hcode, ?_, ?_⟩
  · intro className
    have h1 : (lang == "python".toList) = false := beq_eq_false_iff_ne.mpr hp
    have h2 : (lang == "java".toList) = false := beq_eq_false_iff_ne.mpr hj
    have h3 : (lang == "typescript".toList) = false := beq_eq_false_iff_ne.mpr ht
    have hprop : getProp extensions lang = .undefined := by
      simp only [getProp, extensions, List.lookup, h1, h2, h3, hcont]
      rfl
    simp only [generateFilename, if_neg hp, hprop, toJSString]
  · intro text h
    simp [simulateCodeGeneration, h, generateFiles]
  · intro text h
    cases hc : parseSimpleModel text with
    | nil => exact absurd hc h
    | cons c rest => simp [simulateCodeGeneration, hc, generateFiles, hcode]

/-- Witness of C9, amended, at the target `ruby`. -/
theorem unknown_target_not_rejected_up_front_witness :
    "ruby".toList ∉ supportedLanguages ∧ "ruby".toList ∉ objectPrototypeKeys ∧
    generateClassCode "ruby".toList { name := "User".toList, attributes := [], methods := [] } =
      .error .typeError :=
  ⟨by decide, by decide,
    (unknown_target_not_rejected_up_front "ruby".toList (by decide) (by decide)).2.1 _⟩

/-- C10, at the failing input: the declared type `constructor` is none of the
six table keys, and both type maps return the inherited member
`Object.prototype.constructor` instead of the fallback `Object` / `any`. -/
theorem mapToJavaType_constructor :
    mapToJavaType (some "constructor".toList) = .ok (.inherited "constructor".toList) ∧
    mapToJavaType (some "constructor".toList) ≠ .ok (.str "Object".toList) ∧
    mapToTypeScriptType (some "constructor".toList) = .ok (.inherited "constructor".toList) ∧
    mapToTypeScriptType (some "constructor".toList) ≠ .ok (.str "any".toList) := by
  decide

/-! ## Further lemmas on the emitter and on the parser -/

theorem getProp_of_not_key (table : List (List Char × List Char)) (key : List Char)
    (h : table.lookup key = none) (hp : key ∉ objectPrototypeKeys) :
    getProp table key = .undefined := by
  have hc : objectPrototypeKeys.contains key = false := by simpa using hp
  simp only [getProp, h, hc]
  rfl

theorem typeScriptDefault_of_lower (l : List Char) :
    toJSString (getTypeScriptDefault (orElse (getProp typeScriptMapping l) "any".toList)) =
      (if l = "int".toList ∨ l = "integer".toList ∨ l = "float".toList then "0".toList
       else if l = "string".toList then "\"\"".toList
       else if l = "boolean".toList ∨ l = "bool".toList then "false".toList
       else "undefined".toList) := by
  by_cases h1 : l = "int".toList
  · subst h1; decide
  by_cases h2 : l = "integer".toList
  · subst h2; decide
  by_cases h3 : l = "string".toList
  · subst h3; decide
  by_cases h4 : l = "float".toList
  · subst h4; decide
  by_cases h5 : l = "boolean".toList
  · subst h5; decide
  by_cases h6 : l = "bool".toList
  · subst h6; decide
  have hl : typeScriptMapping.lookup l = none := by
    simp only [typeScriptMapping, List.lookup, beq_eq_false_iff_ne.mpr h1,
      beq_eq_false_iff_ne.mpr h2, beq_eq_false_iff_ne.mpr h3, beq_eq_false_iff_ne.mpr h4,
      beq_eq_false_iff_ne.mpr h5, beq_eq_false_iff_ne.mpr h6]
  have hr : (if l = "int".toList ∨ l = "integer".toList ∨ l = "float".toList then "0".toList
       else if l = "string".toList then "\"\"".toList
       else if l = "boolean".toList ∨ l = "bool".toList then "false".toList
       else "undefined".toList) = "undefined".toList := by
    rw [if_neg (by simp only [h1, h2, h4, or_self, not_false_eq_true]), if_neg h3,
      if_neg (by simp only [h5, h6, or_self, not_false_eq_true])]
  rw [hr]
  by_cases hp : l ∈ objectPrototypeKeys
  · have hc : objectPrototypeKeys.contains l = true := by simpa using hp
    have hg : getProp typeScriptMapping l = .inherited l := by
      simp only [getProp, hl, hc]; rfl
    rw [hg]
    simp only [objectPrototypeKeys, List.mem_cons, List.mem_singleton, List.not_mem_nil,
      or_false] at hp
    rcases hp with h | h | h | h | h | h | h | h | h | h | h | h <;> (subst h; decide)
  · rw [getProp_of_not_key _ _ hl hp]
    decide

theorem appendEach_eq_flatten (f : List Char → Except JSError (List Char))
    (g : List Char → List Char) (as : List (List Char))
    (h : ∀ a ∈ as, f a = .ok (g a)) :
    appendEach f as = .ok (as.map g).flatten := by
  induction as with
  | nil => rfl
  | cons a as ih =>
    have ha := h a (List.mem_cons_self _ _)
    have hr := ih (fun b hb => h b (List.mem_cons_of_mem _ hb))
    simp only [appendEach, ha, hr, List.map_cons, List.flatten_cons]

theorem appendEach_congr_mid (f : List Char → Except JSError (List Char))
    (a b : List Char) (h : f a = f b) (pre post : List (List Char)) :
    appendEach f (pre ++ a :: post) = appendEach f (pre ++ b :: post) := by
  induction pre with
  | nil => simp only [List.nil_append, appendEach, h]
  | cons p ps ih =>
    have ih2 : appendEach f (ps.append (a :: post)) = appendEach f (ps.append (b :: post)) := ih
    simp only [List.cons_append, appendEach, ih2]

theorem attrNameType_of_includes (attr : List Char) (h : includes attr ':' = true) :
    (attrNameType attr).2 = some (declaredType attr) := by
  obtain ⟨t, ht⟩ := attrNameType_snd_of_includes attr h
  simp only [declaredType, ht, Option.getD_some]

theorem typeScriptInitLine_eq (attr : List Char) (h : includes attr ':' = true) :
    typeScriptInitLine attr = .ok (typeScriptAssignment attr) := by
  have ht := attrNameType_of_includes attr h
  simp only [typeScriptInitLine, ht, mapToTypeScriptType, typeScriptAssignment,
    typeScriptDefault_of_lower, typeScriptDefaultFor]

theorem pythonFieldLine_eq (attr : List Char) (h : includes attr ':' = true) :
    pythonFieldLine attr = pythonAssignment attr := by
  have ht := attrNameType_of_includes attr h
  simp only [pythonFieldLine, ht, pythonAssignment, toJSString]

theorem generateTypeScriptCode_wf (cls : ClassDescriptor)
    (h : ∀ a ∈ cls.attributes, includes a ':' = true) :
    ∃ fields, generateTypeScriptCode cls =
      .ok ("/**\n * ".toList ++ cls.name ++ " class\n * Generated from UML model\n */\n".toList ++
        "export class ".toList ++ cls.name ++ " \x7b\n".toList ++
        fields ++
        (if cls.attributes.length > 0 then "\n".toList else []) ++
        "  /**\n   * Creates an instance of ".toList ++ cls.name ++ "\n   */\n".toList ++
        "  constructor() \x7b\n".toList ++
        (cls.attributes.map typeScriptAssignment).flatten ++
        "  \x7d\n\n".toList ++
        (cls.methods.map typeScriptMethodStub).flatten ++
        "\x7d\n".toList) := by
  obtain ⟨fields, hf⟩ := appendEach_ok typeScriptFieldLine cls.attributes
    (fun a ha => typeScriptFieldLine_ok a (h a ha))
  have hi := appendEach_eq_flatten typeScriptInitLine typeScriptAssignment cls.attributes
    (fun a ha => typeScriptInitLine_eq a (h a ha))
  exact ⟨fields, by simp only [generateTypeScriptCode, hf, hi]⟩

theorem generateJavaCode_wf (cls : ClassDescriptor)
    (h : ∀ a ∈ cls.attributes, includes a ':' = true) :
    ∃ fields, generateJavaCode cls =
      .ok ("/**\n * ".toList ++ cls.name ++ " class\n * Generated from UML model\n */\n".toList ++
        "public class ".toList ++ cls.name ++ " \x7b\n\n".toList ++
        fields ++
        (if cls.attributes.length > 0 then "\n".toList else []) ++
        "    /**\n     * Default constructor for ".toList ++ cls.name ++ "\n     */\n".toList ++
        "    public ".toList ++ cls.name ++ "() \x7b\n".toList ++
        "    \x7d\n\n".toList ++
        (cls.methods.map javaMethodStub).flatten ++
        "\x7d\n".toList) := by
  obtain ⟨fields, hf⟩ := appendEach_ok javaFieldLine cls.attributes
    (fun a ha => javaFieldLine_ok a (h a ha))
  exact ⟨fields, by simp only [generateJavaCode, hf]⟩

theorem mem_of_mem_split (sep : Char) (s : List Char) :
    ∀ l ∈ split sep s, ∀ c ∈ l, c ∈ s := by
  induction s with
  | nil =>
    intro l hl c hc
    simp only [split, List.mem_singleton] at hl
    subst hl
    exact hc
  | cons d ds ih =>
    intro l hl c hc
    simp only [split] at hl
    split_ifs at hl with hd
    · rcases List.mem_cons.mp hl with h1 | h1
      · subst h1; simp at hc
      · exact List.mem_cons_of_mem _ (ih l h1 c hc)
    · cases hs : split sep ds with
      | nil => exact absurd hs (split_ne_nil sep ds)
      | cons p ps =>
        rw [hs] at hl
        simp only at hl
        rcases List.mem_cons.mp hl with h1 | h1
        · subst h1
          rcases List.mem_cons.mp hc with h2 | h2
          · subst h2; exact List.mem_cons_self _ _
          · exact List.mem_cons_of_mem _ (ih p (by rw [hs]; exact List.mem_cons_self _ _) c h2)
        · exact List.mem_cons_of_mem _ (ih l (by rw [hs]; exact List.mem_cons_of_mem _ h1) c hc)

theorem trim_of_all_whiteSpace (l : List Char) (h : ∀ c ∈ l, isWhiteSpace c = true) :
    trim l = [] := by
  have : l.dropWhile isWhiteSpace = [] := by
    rw [List.dropWhile_eq_nil_iff]; exact h
  simp [trim, this, trimEnd]

theorem classesByHeader_eq_nil_iff (lines : List (List Char)) :
    classesByHeader lines = [] ↔ ∀ l ∈ lines, isHeaderLine l = false := by
  induction lines with
  | nil => simp [classesByHeader]
  | cons l ls ih =>
    by_cases h : isHeaderLine l = true
    · simp [classesByHeader, h]
    · have h2 : isHeaderLine l = false := by simpa using h
      simp [classesByHeader, h2, ih]

theorem classesByHeader_append_of_no_header (pre post : List (List Char))
    (h : ∀ l ∈ pre, isHeaderLine l = false) :
    classesByHeader (pre ++ post) = classesByHeader post := by
  induction pre with
  | nil => rfl
  | cons l ls ih =>
    have h1 := h l (List.mem_cons_self _ _)
    simp only [List.cons_append, classesByHeader, h1, Bool.false_eq_true, if_false]
    exact ih (fun x hx => h x (List.mem_cons_of_mem _ hx))

theorem split_three (x y rest : List Char) (hx : ':' ∉ x) (hy : ':' ∉ y) :
    split ':' (x ++ ':' :: (y ++ ':' :: rest)) = x :: y :: split ':' rest := by
  rw [split_append_sep, split_append_sep, split_of_not_mem _ _ hx, split_of_not_mem _ _ hy]
  rfl

theorem split_two (x y : List Char) (hx : ':' ∉ x) (hy : ':' ∉ y) :
    split ':' (x ++ ':' :: y) = [x, y] := by
  rw [split_append_sep, split_of_not_mem _ _ hx, split_of_not_mem _ _ hy]
  rfl

theorem parseSimpleModel_single_header (h : List Char) (hl : '\n' ∉ h)
    (hh : endsWith (trim h) ':' = true) :
    parseSimpleModel h = [{ name := (trim h).dropLast, attributes := [], methods := [] }] := by
  rw [parseSimpleModel_eq, split_of_not_mem _ _ hl]
  have : isHeaderLine h = true := hh
  simp [classesByHeader, this, linesUntilHeader, attributeLines, methodLines]

/-! ## The claims on the emitted text and on the parser's edge cases -/

/-- C11, as stated, fails for the java target: the constructor emitted for a
class with the attribute `id: int` has an empty body, and the whole file
contains no assignment at all. -/
theorem generateJavaCode_constructor_body_empty :
    generateJavaCode { name := "User".toList, attributes := ["id: int".toList], methods := [] } =
      .ok ("/**\n * User class\n * Generated from UML model\n */\npublic class User \x7b\n\n".toList ++
        "    private int id;\n\n".toList ++
        "    /**\n     * Default constructor for User\n     */\n".toList ++
        "    public User() \x7b\n    \x7d\n\n\x7d\n".toList) ∧
    '=' ∉ ("/**\n * User class\n * Generated from UML model\n */\npublic class User \x7b\n\n".toList ++
        "    private int id;\n\n".toList ++
        "    /**\n     * Default constructor for User\n     */\n".toList ++
        "    public User() \x7b\n    \x7d\n\n\x7d\n".toList) :=
  ⟨by decide!, by decide!⟩

/-- C11, amended: for a class whose attribute lines contain `:`, the python
initializer and the typescript constructor hold one default-value assignment
per attribute, in declaration order (`self._<name> = None`, respectively
`this.<name> = <default>;`), and the java constructor has an empty body. -/
theorem constructor_assignments (cls : ClassDescriptor)
    (h : ∀ a ∈ cls.attributes, includes a ':' = true) :
    (∃ pre, generatePythonCode cls =
      pre ++ "    def __init__(self):\n".toList ++
        "        \"\"\"Initialize the class instance\"\"\"\n".toList ++
        (cls.attributes.map pythonAssignment).flatten ++
        (if cls.attributes.length = 0 then "        pass\n".toList else []) ++
        "\n".toList ++ (cls.methods.map pythonMethodStub).flatten) ∧
    (∃ pre, generateTypeScriptCode cls =
      .ok (pre ++ "  constructor() \x7b\n".toList ++
        (cls.attributes.map typeScriptAssignment).flatten ++
        "  \x7d\n\n".toList ++ (cls.methods.map typeScriptMethodStub).flatten ++
        "\x7d\n".toList)) ∧
    (∃ pre, generateJavaCode cls =
      .ok (pre ++ "    public ".toList ++ cls.name ++ "() \x7b\n".toList ++
        "    \x7d\n\n".toList ++ (cls.methods.map javaMethodStub).flatten ++
        "\x7d\n".toList)) := by
  refine ⟨?_, ?_, ?_⟩
  · have hf : cls.attributes.map pythonFieldLine = cls.attributes.map pythonAssignment :=
      List.map_congr_left (fun a ha => pythonFieldLine_eq a (h a ha))
    refine ⟨"\"\"\"".toList ++ cls.name ++
      " class\nGenerated from UML model\n\"\"\"\n\n".toList ++
      "class ".toList ++ cls.name ++ ":\n".toList ++
      "    \"\"\"".toList ++ cls.name ++ " class\"\"\"\n\n".toList, ?_⟩
    simp only [generatePythonCode, hf, List.append_assoc]
  · obtain ⟨fields, hf⟩ := generateTypeScriptCode_wf cls h
    rw [hf]
    exact ⟨_, rfl⟩
  · obtain ⟨fields, hf⟩ := generateJavaCode_wf cls h
    rw [hf]
    refine ⟨"/**\n * ".toList ++ cls.name ++ " class\n * Generated from UML model\n */\n".toList ++
        "public class ".toList ++ cls.name ++ " \x7b\n\n".toList ++
        fields ++
        (if cls.attributes.length > 0 then "\n".toList else []) ++
        "    /**\n     * Default constructor for ".toList ++ cls.name ++ "\n     */\n".toList, ?_⟩
    simp only [List.append_assoc]

/-- Witness of C11, amended, at the example class and the typescript target. -/
theorem constructor_assignments_witness :
    (∀ a ∈ exampleClass.attributes, includes a ':' = true) ∧
    ∃ pre, generateTypeScriptCode exampleClass =
      .ok (pre ++ "  constructor() \x7b\n".toList ++
        (exampleClass.attributes.map typeScriptAssignment).flatten ++
        "  \x7d\n\n".toList ++ (exampleClass.methods.map typeScriptMethodStub).flatten ++
        "\x7d\n".toList) :=
  ⟨by decide, (constructor_assignments exampleClass (by decide)).2.1⟩

/-- C12, as stated, fails for the python target: the stub emitted for the
method line `getId()` is a docstring followed by `pass`, and the generated file
contains no `TODO` comment. -/
theorem generatePythonCode_stub_without_todo :
    generatePythonCode { name := "User".toList, attributes := [], methods := ["getId()".toList] } =
      ("\"\"\"User class\nGenerated from UML model\n\"\"\"\n\nclass User:\n".toList ++
        "    \"\"\"User class\"\"\"\n\n    def __init__(self):\n".toList ++
        "        \"\"\"Initialize the class instance\"\"\"\n        pass\n\n".toList ++
        "    def getId(self):\n        \"\"\"getId method\"\"\"\n        pass\n\n".toList) ∧
    ¬ ("TODO".toList <:+: generatePythonCode
      { name := "User".toList, attributes := [], methods := ["getId()".toList] }) :=
  ⟨by decide!, by decide!⟩

/-- C13, as stated, fails: the file generated for the example model does not
contain the text `public void getId() { /* TODO */ }`. -/
theorem example_java_stub_not_block_comment :
    simulateCodeGeneration "java".toList exampleModel =
      .ok [("User.java".toList, .str exampleJavaCode)] ∧
    ¬ ("public void getId() \x7b /* TODO */ \x7d".toList <:+: exampleJavaCode) :=
  ⟨by decide!, by decide!⟩

/-- C13, amended: generating the example model for the java target gives the
single entry `User.java`, whose text holds the private fields `int id;` and
`String username;`, the constructor `public User()` and the stub
`public void getId()` with the body `// TODO: Implement method`. -/
theorem example_java_generation :
    simulateCodeGeneration "java".toList exampleModel =
      .ok [("User.java".toList, .str exampleJavaCode)] ∧
    "private int id;".toList <:+: exampleJavaCode ∧
    "private String username;".toList <:+: exampleJavaCode ∧
    "public User() \x7b".toList <:+: exampleJavaCode ∧
    "public void getId() \x7b\n        // TODO: Implement method\n    \x7d".toList
      <:+: exampleJavaCode :=
  ⟨by decide!, by decide!, by decide!, by decide!, by decide!⟩

/-- C15: for every model text and every supported target
`simulateCodeGeneration` returns a mapping; every attribute string of a parsed
class splits on `:` into at least two segments, so the type handed to
`mapToJavaType` and `mapToTypeScriptType` is a string and both return. -/
theorem simulateCodeGeneration_total (lang text : List Char)
    (hlang : lang ∈ supportedLanguages) :
    (∃ files, simulateCodeGeneration lang text = .ok files) ∧
    ∀ c ∈ parseSimpleModel text, ∀ a ∈ c.attributes,
      2 ≤ (split ':' a).length ∧
      ∃ t, (attrNameType a).2 = some t ∧
        (∃ v, mapToJavaType (attrNameType a).2 = .ok v) ∧
        (∃ v, mapToTypeScriptType (attrNameType a).2 = .ok v) := by
  have hattr : ∀ d ∈ parseSimpleModel text, ∀ a ∈ d.attributes, includes a ':' = true := by
    rw [parseSimpleModel_eq]
    exact classesByHeader_attributes _
  constructor
  · apply generateFiles_ok
    intro d hd
    obtain ⟨code, h⟩ := generateClassCode_ok lang d hlang (hattr d hd)
    exact ⟨_, h⟩
  · intro c hc a ha
    have hi := hattr c hc a ha
    have hm : ':' ∈ a := by simpa [includes] using hi
    obtain ⟨p, q, rest, he⟩ := split_of_mem ':' a hm
    refine ⟨by rw [he]; simp, ?_⟩
    obtain ⟨t, ht⟩ := attrNameType_snd_of_includes a hi
    exact ⟨t, ht, ⟨_, by rw [ht]; rfl⟩, ⟨_, by rw [ht]; rfl⟩⟩

/-- Witness of C15 at the example model and the typescript target. -/
theorem simulateCodeGeneration_total_witness :
    "typescript".toList ∈ supportedLanguages ∧
    ∃ files, simulateCodeGeneration "typescript".toList exampleModel = .ok files :=
  ⟨by decide, (simulateCodeGeneration_total "typescript".toList exampleModel (by decide)).1⟩

/-- C16, as stated, fails: inside the open class `User` the line `id:` is not
an attribute of `User`; it opens a class named `id`, `User` keeps no attribute
and the java target emits the two files `User.java` and `id.java`. -/
theorem line_without_type_opens_class :
    parseSimpleModel "User:\n  id:".toList =
      [{ name := "User".toList, attributes := [], methods := [] },
       { name := "id".toList, attributes := [], methods := [] }] ∧
    (simulateCodeGeneration "java".toList "User:\n  id:".toList).map
      (fun files => files.map Prod.fst) = .ok ["User.java".toList, "id.java".toList] :=
  ⟨by decide, by decide!⟩

/-- C17: `parseSimpleModel` returns the empty sequence for the empty string
and for every text made of white space only, and in general exactly when no
line of the text has a trimmed form ending with `:`. -/
theorem parseSimpleModel_eq_nil :
    parseSimpleModel [] = [] ∧
    (∀ text : List Char, (∀ c ∈ text, isWhiteSpace c = true) → parseSimpleModel text = []) ∧
    (∀ text : List Char, parseSimpleModel text = [] ↔
      ∀ l ∈ split '\n' text, endsWith (trim l) ':' = false) := by
  have hiff : ∀ text : List Char, parseSimpleModel text = [] ↔
      ∀ l ∈ split '\n' text, endsWith (trim l) ':' = false := by
    intro text
    rw [parseSimpleModel_eq]
    exact classesByHeader_eq_nil_iff _
  refine ⟨by decide, ?_, hiff⟩
  intro text hws
  rw [hiff]
  intro l hl
  have hall : ∀ c ∈ l, isWhiteSpace c = true :=
    fun c hc => hws c (mem_of_mem_split '\n' text l hl c hc)
  rw [trim_of_all_whiteSpace l hall]
  rfl

/-- Witness of C17 at a text of blanks, a tab and line ends. -/
theorem parseSimpleModel_eq_nil_witness :
    (∀ c ∈ "  \n\t \r\n ".toList, isWhiteSpace c = true) ∧
    parseSimpleModel "  \n\t \r\n ".toList = [] :=
  ⟨by decide, parseSimpleModel_eq_nil.2.1 "  \n\t \r\n ".toList (by decide)⟩

/-- C18: lines before the first class header are ignored: when no line of `p`
has a trimmed form ending with `:`, parsing `p`, a line end and `t` gives the
classes of `t`. -/
theorem parseSimpleModel_ignores_preamble (p t : List Char)
    (hp : ∀ l ∈ split '\n' p, endsWith (trim l) ':' = false) :
    parseSimpleModel (p ++ '\n' :: t) = parseSimpleModel t := by
  rw [parseSimpleModel_eq, parseSimpleModel_eq, split_append_sep]
  exact classesByHeader_append_of_no_header _ _ hp

/-- Witness of C18 at a two-line preamble before the example model. -/
theorem parseSimpleModel_ignores_preamble_witness :
    (∀ l ∈ split '\n' "my model\n  x: int".toList, endsWith (trim l) ':' = false) ∧
    parseSimpleModel ("my model\n  x: int".toList ++ '\n' :: exampleModel) =
      parseSimpleModel exampleModel :=
  ⟨by decide, parseSimpleModel_ignores_preamble "my model\n  x: int".toList exampleModel
    (by decide)⟩

/-! ## Lemmas on concatenation at a header and on the number of files -/

theorem linesUntilHeader_append_header (ls : List (List Char)) (h : List Char)
    (rest : List (List Char)) (hh : isHeaderLine h = true) :
    linesUntilHeader (ls ++ h :: rest) = linesUntilHeader ls := by
  induction ls with
  | nil => simp [linesUntilHeader, hh]
  | cons l ls ih =>
    simp only [linesUntilHeader] at ih ⊢
    by_cases hl : isHeaderLine l = true
    · simp [List.takeWhile, hl]
    · have hl2 : isHeaderLine l = false := by simpa using hl
      simp [List.takeWhile, hl2, ih]

theorem classesByHeader_append_header (pre : List (List Char)) (h : List Char)
    (rest : List (List Char)) (hh : isHeaderLine h = true) :
    classesByHeader (pre ++ h :: rest) = classesByHeader pre ++ classesByHeader (h :: rest) := by
  induction pre with
  | nil => rfl
  | cons l ls ih =>
    generalize classesByHeader (h :: rest) = tail at ih ⊢
    have ih2 : classesByHeader (ls.append (h :: rest)) = classesByHeader ls ++ tail := ih
    have hu : linesUntilHeader (ls.append (h :: rest)) = linesUntilHeader ls :=
      linesUntilHeader_append_header ls h rest hh
    by_cases hl : isHeaderLine l = true
    · simp only [List.cons_append, classesByHeader, hl, if_true, hu, ih2]
    · have hl2 : isHeaderLine l = false := by simpa using hl
      simp only [List.cons_append, classesByHeader, hl2, Bool.false_eq_true, if_false, ih2]

theorem generateFiles_keys (lang : List Char) (cs : List ClassDescriptor) :
    ∀ files out, generateFiles lang cs files = .ok out →
      ∀ k, k ∈ out.map Prod.fst ↔
        k ∈ files.map Prod.fst ∨ k ∈ cs.map (fun c => generateFilename lang c.name) := by
  induction cs with
  | nil =>
    intro files out h k
    simp only [generateFiles, Except.ok.injEq] at h
    subst h
    simp
  | cons c rest ih =>
    intro files out h k
    simp only [generateFiles] at h
    cases hv : generateClassCode lang c with
    | error e => simp [hv] at h
    | ok v =>
      simp only [hv] at h
      rw [ih _ _ h k, setProp_keys]
      split_ifs with hm
      · simp only [List.map_cons, List.mem_cons]
        constructor
        · rintro (h1 | h1)
          · exact Or.inl h1
          · exact Or.inr (Or.inr h1)
        · rintro (h1 | h1 | h1)
          · exact Or.inl h1
          · exact Or.inl (h1 ▸ hm)
          · exact Or.inr h1
      · simp only [List.mem_append, List.mem_singleton, List.map_cons, List.mem_cons]
        tauto

theorem generateFiles_length (lang : List Char) (cs : List ClassDescriptor)
    (out : List (List Char × JSValue)) (h : generateFiles lang cs [] = .ok out) :
    out.length = (cs.map (fun c => generateFilename lang c.name)).dedup.length := by
  have hn : (out.map Prod.fst).Nodup := generateFiles_nodup lang cs [] out h (by simp)
  have hk := generateFiles_keys lang cs [] out h
  have hp : (out.map Prod.fst).Perm (cs.map (fun c => generateFilename lang c.name)).dedup := by
    rw [List.perm_ext_iff_of_nodup hn (List.nodup_dedup _)]
    intro k
    rw [hk k, List.mem_dedup]
    simp
  have := hp.length_eq
  simpa using this

/-! ## The claims on the python comments, validation, concatenation and file counts -/

/-- C21: for a class whose attribute lines contain `:`, the `__init__` emitted
by `generatePythonCode` holds, in declaration order, one line
`self._<name> = None  # <type>` per attribute; the type in the comment is the
second `:`-segment of the line, trimmed, as it is written in the model: it is
neither mapped nor lower-cased. -/
theorem python_field_comments (cls : ClassDescriptor)
    (h : ∀ a ∈ cls.attributes, includes a ':' = true) :
    (∃ pre, generatePythonCode cls =
      pre ++ "    def __init__(self):\n".toList ++
        "        \"\"\"Initialize the class instance\"\"\"\n".toList ++
        (cls.attributes.map (fun a =>
          "        self._".toList ++ (attrNameType a).1 ++ " = None  # ".toList ++
            declaredType a ++ "\n".toList)).flatten ++
        (if cls.attributes.length = 0 then "        pass\n".toList else []) ++
        "\n".toList ++ (cls.methods.map pythonMethodStub).flatten) ∧
    ∀ x y : List Char, ':' ∉ x → ':' ∉ y →
      attrNameType (x ++ ':' :: y) = (trim x, some (trim y)) ∧
      declaredType (x ++ ':' :: y) = trim y ∧
      pythonFieldLine (x ++ ':' :: y) =
        "        self._".toList ++ trim x ++ " = None  # ".toList ++ trim y ++ "\n".toList := by
  constructor
  · have hf : cls.attributes.map pythonFieldLine = cls.attributes.map (fun a =>
          "        self._".toList ++ (attrNameType a).1 ++ " = None  # ".toList ++
            declaredType a ++ "\n".toList) :=
      List.map_congr_left (fun a ha => (pythonFieldLine_eq a (h a ha)).trans rfl)
    refine ⟨"\"\"\"".toList ++ cls.name ++
      " class\nGenerated from UML model\n\"\"\"\n\n".toList ++
      "class ".toList ++ cls.name ++ ":\n".toList ++
      "    \"\"\"".toList ++ cls.name ++ " class\"\"\"\n\n".toList, ?_⟩
    simp only [generatePythonCode, hf, List.append_assoc]
  · intro x y hx hy
    have h2 : attrNameType (x ++ ':' :: y) = (trim x, some (trim y)) := by
      simp only [attrNameType, split_two x y hx hy, List.map_cons, List.headD_cons,
        List.tail_cons, List.head?_cons]
    refine ⟨h2, ?_, ?_⟩
    · simp only [declaredType, h2, Option.getD_some]
    · simp only [pythonFieldLine, h2, toJSString]

/-- Witness of C21 at the attribute line `count: Int`, whose type keeps its
capital letter. -/
theorem python_field_comments_witness :
    (∀ a ∈ exampleClass.attributes, includes a ':' = true) ∧
    ':' ∉ "count".toList ∧ ':' ∉ " Int".toList ∧
    pythonFieldLine ("count".toList ++ ':' :: " Int".toList) =
      "        self._".toList ++ trim "count".toList ++ " = None  # ".toList ++
        trim " Int".toList ++ "\n".toList :=
  ⟨by decide, by decide, by decide,
    ((python_field_comments exampleClass (by decide)).2 "count".toList " Int".toList
      (by decide) (by decide)).2.2⟩

/-- C22, at the failing input: for the non-empty text `User: ` / `  id: int`,
whose header has a blank after the `:`, `validateModel` reports that no class
was found while `parseSimpleModel` on the trimmed text returns the class
`User`; for `A: ` / `B:` it reports one class while the parser returns two. -/
theorem validateModel_header_with_trailing_blank :
    trim headerWithTrailingBlank ≠ [] ∧
    validateModel "simple".toList headerWithTrailingBlank = .noClassesFound ∧
    parseSimpleModel (trim headerWithTrailingBlank) =
      [{ name := "User".toList, attributes := ["id: int".toList], methods := [] }] ∧
    validateModel "simple".toList "A: \nB:".toList = .valid 1 0 ∧
    (parseSimpleModel (trim "A: \nB:".toList)).length = 2 := by
  decide

/-- C23: when the first line of `b` is a class header, parsing `a`, a line end
and `b` gives the classes of `a` followed by the classes of `b`. -/
theorem parseSimpleModel_append_at_header (a b : List Char)
    (hb : endsWith (trim ((split '\n' b).headD [])) ':' = true) :
    parseSimpleModel (a ++ '\n' :: b) = parseSimpleModel a ++ parseSimpleModel b := by
  rw [parseSimpleModel_eq, parseSimpleModel_eq, parseSimpleModel_eq, split_append_sep]
  cases hs : split '\n' b with
  | nil => exact absurd hs (split_ne_nil '\n' b)
  | cons first rest =>
    rw [hs] at hb
    exact classesByHeader_append_header _ first rest hb

/-- Witness of C23: the example model followed by the text `Product:` /
`  price: float`. -/
theorem parseSimpleModel_append_at_header_witness :
    endsWith (trim ((split '\n' "Product:\n  price: float".toList).headD [])) ':' = true ∧
    parseSimpleModel (exampleModel ++ '\n' :: "Product:\n  price: float".toList) =
      parseSimpleModel exampleModel ++ parseSimpleModel "Product:\n  price: float".toList :=
  ⟨by decide,
    parseSimpleModel_append_at_header exampleModel "Product:\n  price: float".toList
      (by decide)⟩

/-- C24: for the java and the typescript target the filename is injective in
the class name and the mapping returned by `simulateCodeGeneration` has as many
entries as there are distinct class names in the parsed model; for every
supported target it has at most as many entries as there are parsed classes. -/
theorem generated_file_count (text : List Char) :
    Function.Injective (generateFilename "java".toList) ∧
    Function.Injective (generateFilename "typescript".toList) ∧
    (∃ files, simulateCodeGeneration "java".toList text = .ok files ∧
      files.length = ((parseSimpleModel text).map ClassDescriptor.name).dedup.length) ∧
    (∃ files, simulateCodeGeneration "typescript".toList text = .ok files ∧
      files.length = ((parseSimpleModel text).map ClassDescriptor.name).dedup.length) ∧
    ∀ lang ∈ supportedLanguages,
      ∃ files, simulateCodeGeneration lang text = .ok files ∧
        files.length ≤ (parseSimpleModel text).length := by
  have hj : ∀ n, generateFilename "java".toList n = n ++ ".java".toList := fun _ => rfl
  have ht : ∀ n, generateFilename "typescript".toList n = n ++ ".ts".toList := fun _ => rfl
  have ij : Function.Injective (generateFilename "java".toList) := by
    intro a b hab
    rw [hj, hj] at hab
    exact List.append_cancel_right hab
  have it : Function.Injective (generateFilename "typescript".toList) := by
    intro a b hab
    rw [ht, ht] at hab
    exact List.append_cancel_right hab
  have hattr : ∀ d ∈ parseSimpleModel text, ∀ a ∈ d.attributes, includes a ':' = true := by
    rw [parseSimpleModel_eq]
    exact classesByHeader_attributes _
  have hok : ∀ lang ∈ supportedLanguages,
      ∃ files, simulateCodeGeneration lang text = .ok files := by
    intro lang hlang
    apply generateFiles_ok
    intro d hd
    obtain ⟨code, h⟩ := generateClassCode_ok lang d hlang (hattr d hd)
    exact ⟨_, h⟩
  have hcount : ∀ lang, Function.Injective (generateFilename lang) → ∀ files,
      simulateCodeGeneration lang text = .ok files →
      files.length = ((parseSimpleModel text).map ClassDescriptor.name).dedup.length := by
    intro lang hinj files hfiles
    rw [generateFiles_length lang _ files hfiles]
    have hm : (parseSimpleModel text).map (fun c => generateFilename lang c.name) =
        ((parseSimpleModel text).map ClassDescriptor.name).map (generateFilename lang) := by
      rw [List.map_map]; rfl
    rw [hm, List.dedup_map_of_injective hinj, List.length_map]
  refine ⟨ij, it, ?_, ?_, ?_⟩
  · obtain ⟨files, hf⟩ := hok "java".toList (by decide)
    exact ⟨files, hf, hcount _ ij files hf⟩
  · obtain ⟨files, hf⟩ := hok "typescript".toList (by decide)
    exact ⟨files, hf, hcount _ it files hf⟩
  · intro lang hlang
    obtain ⟨files, hf⟩ := hok lang hlang
    refine ⟨files, hf, ?_⟩
    rw [generateFiles_length lang _ files hf]
    calc ((parseSimpleModel text).map (fun c => generateFilename lang c.name)).dedup.length
        ≤ ((parseSimpleModel text).map (fun c => generateFilename lang c.name)).length :=
          (List.dedup_sublist _).length_le
      _ = (parseSimpleModel text).length := List.length_map _ _

/-- Witness of C24: a model with the class `Order` twice and the class `User`
once, python target. -/
theorem generated_file_count_witness :
    "python".toList ∈ supportedLanguages ∧
    ∃ files, simulateCodeGeneration "python".toList "Order:\nUser:\nOrder:".toList = .ok files ∧
      files.length ≤ (parseSimpleModel "Order:\nUser:\nOrder:".toList).length :=
  ⟨by decide,
    (generated_file_count "Order:\nUser:\nOrder:".toList).2.2.2.2 "python".toList (by decide)⟩

/-! ## The claims on collisions, stubs, empty classes and attribute segments -/

theorem split_one (sep : Char) (x rest : List Char) (hx : sep ∉ x) :
    split sep (x ++ sep :: rest) = x :: split sep rest := by
  rw [split_append_sep, split_of_not_mem _ _ hx]
  rfl

theorem methodName_eq (name rest : List Char) (h : '(' ∉ name) :
    methodName (name ++ '(' :: rest) = name := by
  simp only [methodName, split_one '(' name rest h, List.headD_cons]

/-- Witness of C8: the classes `é` and `É`, python target; both names give the
filename `é.py`, and its single entry holds the code of the later class. -/
theorem simulateCodeGeneration_last_write_wins_witness :
    "python".toList ∈ supportedLanguages ∧
    parseSimpleModel "é:\n a: int\nÉ:\n b: string".toList =
      [{ name := "é".toList, attributes := ["a: int".toList], methods := [] }] ++
        { name := "É".toList, attributes := ["b: string".toList], methods := [] } :: [] ∧
    generateFilename "python".toList "é".toList = "é.py".toList ∧
    generateFilename "python".toList "É".toList = "é.py".toList ∧
    ∃ files code,
      simulateCodeGeneration "python".toList "é:\n a: int\nÉ:\n b: string".toList =
        .ok files ∧
      generateClassCode "python".toList
        { name := "É".toList, attributes := ["b: string".toList], methods := [] } =
        .ok (.str code) ∧
      (files.filter (fun e => e.1 = generateFilename "python".toList "É".toList)).length = 1 ∧
      getFile files (generateFilename "python".toList "É".toList) = some (.str code) :=
  ⟨by decide, by decide!, by decide!, by decide!,
    simulateCodeGeneration_last_write_wins "python".toList
      "é:\n a: int\nÉ:\n b: string".toList
      [{ name := "é".toList, attributes := ["a: int".toList], methods := [] }]
      { name := "É".toList, attributes := ["b: string".toList], methods := [] } []
      (by decide) (by decide!) (by intro d hd; cases hd)⟩

/-- C12, amended: for a class whose attribute lines contain `:`, each target
ends its output with one stub per method line, in order; the stub of a line is
named by the text before the first `(` of the line, whatever follows that `(`
(parameters, return-type hint); the java and typescript stubs return `void` and
have a `TODO` comment as body, the python stub is a docstring followed by
`pass`. -/
theorem method_stubs (cls : ClassDescriptor)
    (h : ∀ a ∈ cls.attributes, includes a ':' = true) :
    (∃ pre, generatePythonCode cls =
      pre ++ ((cls.methods.map methodName).map (fun m =>
        "    def ".toList ++ m ++ "(self):\n".toList ++
        "        \"\"\"".toList ++ m ++ " method\"\"\"\n".toList ++
        "        pass\n\n".toList)).flatten) ∧
    (∃ pre, generateJavaCode cls =
      .ok (pre ++ ((cls.methods.map methodName).map (fun m =>
        "    /**\n     * ".toList ++ m ++ " method\n     */\n".toList ++
        "    public void ".toList ++ m ++ "() \x7b\n".toList ++
        "        // TODO: Implement method\n".toList ++
        "    \x7d\n\n".toList)).flatten ++ "\x7d\n".toList)) ∧
    (∃ pre, generateTypeScriptCode cls =
      .ok (pre ++ ((cls.methods.map methodName).map (fun m =>
        "  /**\n   * ".toList ++ m ++ " method\n   */\n".toList ++
        "  public ".toList ++ m ++ "(): void \x7b\n".toList ++
        "    // TODO: Implement method\n".toList ++
        "  \x7d\n\n".toList)).flatten ++ "\x7d\n".toList)) ∧
    ∀ name rest : List Char, '(' ∉ name →
      methodName (name ++ '(' :: rest) = name ∧
      pythonMethodStub (name ++ '(' :: rest) =
        "    def ".toList ++ name ++ "(self):\n".toList ++
        "        \"\"\"".toList ++ name ++ " method\"\"\"\n".toList ++
        "        pass\n\n".toList ∧
      javaMethodStub (name ++ '(' :: rest) =
        "    /**\n     * ".toList ++ name ++ " method\n     */\n".toList ++
        "    public void ".toList ++ name ++ "() \x7b\n".toList ++
        "        // TODO: Implement method\n".toList ++
        "    \x7d\n\n".toList ∧
      typeScriptMethodStub (name ++ '(' :: rest) =
        "  /**\n   * ".toList ++ name ++ " method\n   */\n".toList ++
        "  public ".toList ++ name ++ "(): void \x7b\n".toList ++
        "    // TODO: Implement method\n".toList ++
        "  \x7d\n\n".toList := by
  refine ⟨?_, ?_, ?_, ?_⟩
  · exact ⟨_, by simp only [generatePythonCode, List.map_map]; rfl⟩
  · obtain ⟨fields, hf⟩ := generateJavaCode_wf cls h
    rw [hf]
    exact ⟨_, by simp only [List.map_map]; rfl⟩
  · obtain ⟨fields, hf⟩ := generateTypeScriptCode_wf cls h
    rw [hf]
    exact ⟨_, by simp only [List.map_map]; rfl⟩
  · intro name rest hn
    have hm := methodName_eq name rest hn
    refine ⟨hm, ?_, ?_, ?_⟩
    · simp only [pythonMethodStub, hm]
    · simp only [javaMethodStub, hm]
    · simp only [typeScriptMethodStub, hm]

/-- Witness of C12, amended: the method line `setUsername(name: string): void`
of the example class gives the java stub named `setUsername`. -/
theorem method_stubs_witness :
    (∀ a ∈ exampleClass.attributes, includes a ':' = true) ∧
    '(' ∉ "setUsername".toList ∧
    methodName ("setUsername".toList ++ '(' :: "name: string): void".toList) =
      "setUsername".toList ∧
    javaMethodStub ("setUsername".toList ++ '(' :: "name: string): void".toList) =
      ("    /**\n     * setUsername method\n     */\n".toList ++
        "    public void setUsername() \x7b\n".toList ++
        "        // TODO: Implement method\n    \x7d\n\n".toList) :=
  ⟨by decide, by decide,
    ((method_stubs exampleClass (by decide)).2.2.2 "setUsername".toList
      "name: string): void".toList (by decide)).1,
    (((method_stubs exampleClass (by decide)).2.2.2 "setUsername".toList
      "name: string): void".toList (by decide)).2.2.1).trans (by decide!)⟩

/-- C20: for a class whose attribute lines contain `:`, the body of the
typescript constructor is one line `this.<name> = <default>;` per attribute, in
declaration order; `<name>` is the first `:`-segment of the attribute line
trimmed, and `<default>` is `0` when the second segment, trimmed, lower-cases
to int, integer or float, `""` for string, `false` for boolean or bool and
`undefined` for every other declared type. -/
theorem typeScript_constructor_body (cls : ClassDescriptor)
    (h : ∀ a ∈ cls.attributes, includes a ':' = true) :
    (∃ pre, generateTypeScriptCode cls =
      .ok (pre ++ "  constructor() \x7b\n".toList ++
        (cls.attributes.map (fun a =>
          "    this.".toList ++ (attrNameType a).1 ++ " = ".toList ++
            typeScriptDefaultFor (declaredType a) ++ ";\n".toList)).flatten ++
        "  \x7d\n\n".toList ++ (cls.methods.map typeScriptMethodStub).flatten ++
        "\x7d\n".toList)) ∧
    (∀ x y : List Char, ':' ∉ x → ':' ∉ y →
      attrNameType (x ++ ':' :: y) = (trim x, some (trim y)) ∧
      declaredType (x ++ ':' :: y) = trim y ∧
      typeScriptInitLine (x ++ ':' :: y) =
        .ok ("    this.".toList ++ trim x ++ " = ".toList ++
          typeScriptDefaultFor (trim y) ++ ";\n".toList)) ∧
    ∀ t : List Char,
      typeScriptDefaultFor t =
        (if toLowerCase t = "int".toList ∨ toLowerCase t = "integer".toList ∨
            toLowerCase t = "float".toList then "0".toList
         else if toLowerCase t = "string".toList then "\"\"".toList
         else if toLowerCase t = "boolean".toList ∨ toLowerCase t = "bool".toList then
           "false".toList
         else "undefined".toList) := by
  refine ⟨?_, ?_, fun t => rfl⟩
  · obtain ⟨fields, hf⟩ := generateTypeScriptCode_wf cls h
    rw [hf]
    exact ⟨_, rfl⟩
  · intro x y hx hy
    have h2 : attrNameType (x ++ ':' :: y) = (trim x, some (trim y)) := by
      simp only [attrNameType, split_two x y hx hy, List.map_cons, List.headD_cons,
        List.tail_cons, List.head?_cons]
    have hd : declaredType (x ++ ':' :: y) = trim y := by
      simp only [declaredType, h2, Option.getD_some]
    have hi : includes (x ++ ':' :: y) ':' = true := by simp [includes]
    refine ⟨h2, hd, ?_⟩
    rw [typeScriptInitLine_eq _ hi]
    simp only [typeScriptAssignment, h2, hd]

/-- Witness of C20: the attribute lines `id: int`, `name: String` and
`when: Date` give the constructor lines `this.id = 0;`, `this.name = "";` and
`this.when = undefined;`. -/
theorem typeScript_constructor_body_witness :
    (∀ a ∈ exampleClass.attributes, includes a ':' = true) ∧
    ':' ∉ "id".toList ∧ ':' ∉ " int".toList ∧
    typeScriptInitLine ("id".toList ++ ':' :: " int".toList) =
      .ok "    this.id = 0;\n".toList ∧
    typeScriptInitLine "name: String".toList = .ok "    this.name = \"\";\n".toList ∧
    typeScriptInitLine "when: Date".toList = .ok "    this.when = undefined;\n".toList :=
  ⟨by decide, by decide, by decide,
    (((typeScript_constructor_body exampleClass (by decide)).2.1 "id".toList " int".toList
      (by decide) (by decide)).2.2).trans (by decide!),
    by decide!, by decide!⟩

theorem linesUntilHeader_body (body rest : List (List Char))
    (hbody : ∀ l ∈ body, isHeaderLine l = false)
    (hrest : ∀ l ∈ rest.head?, isHeaderLine l = true) :
    linesUntilHeader (body ++ rest) = body := by
  have hall : linesUntilHeader body = body := by
    simp only [linesUntilHeader]
    rw [List.takeWhile_eq_self_iff]
    intro l hl
    simp [hbody l hl]
  cases rest with
  | nil => simpa using hall
  | cons first more =>
    rw [linesUntilHeader_append_header body first more (hrest first (by simp)), hall]

theorem attributeLines_eq_nil (body : List (List Char))
    (h : ∀ l ∈ body, isAttributeLine l = false) : attributeLines body = [] := by
  simp only [attributeLines, List.map_eq_nil_iff, List.filter_eq_nil_iff]
  intro l hl
  simp [h l hl]

theorem methodLines_eq_nil (body : List (List Char))
    (h : ∀ l ∈ body, isMethodLine l = false) : methodLines body = [] := by
  simp only [methodLines, List.map_eq_nil_iff, List.filter_eq_nil_iff]
  intro l hl
  simp [h l hl]

theorem generateClassCode_empty (name : List Char) :
    generateClassCode "python".toList { name := name, attributes := [], methods := [] } =
      .ok (.str ("\"\"\"".toList ++ name ++
        " class\nGenerated from UML model\n\"\"\"\n\n".toList ++
        "class ".toList ++ name ++ ":\n".toList ++
        "    \"\"\"".toList ++ name ++ " class\"\"\"\n\n".toList ++
        "    def __init__(self):\n".toList ++
        "        \"\"\"Initialize the class instance\"\"\"\n".toList ++
        "        pass\n".toList ++ "\n".toList)) ∧
    generateClassCode "java".toList { name := name, attributes := [], methods := [] } =
      .ok (.str ("/**\n * ".toList ++ name ++
        " class\n * Generated from UML model\n */\n".toList ++
        "public class ".toList ++ name ++ " \x7b\n\n".toList ++
        "    /**\n     * Default constructor for ".toList ++ name ++ "\n     */\n".toList ++
        "    public ".toList ++ name ++ "() \x7b\n".toList ++
        "    \x7d\n\n".toList ++ "\x7d\n".toList)) ∧
    generateClassCode "typescript".toList { name := name, attributes := [], methods := [] } =
      .ok (.str ("/**\n * ".toList ++ name ++
        " class\n * Generated from UML model\n */\n".toList ++
        "export class ".toList ++ name ++ " \x7b\n".toList ++
        "  /**\n   * Creates an instance of ".toList ++ name ++ "\n   */\n".toList ++
        "  constructor() \x7b\n".toList ++
        "  \x7d\n\n".toList ++ "\x7d\n".toList)) := by
  have h1 : ("java".toList = "python".toList) = False := by decide
  have h2 : ("typescript".toList = "python".toList) = False := by decide
  have h3 : ("typescript".toList = "java".toList) = False := by decide
  refine ⟨?_, ?_, ?_⟩
  · simp only [generateClassCode, if_true, generatePythonCode, List.map_nil,
      List.flatten_nil, List.append_nil, List.length_nil]
  · simp only [generateClassCode, h1, if_false, if_true, generateJavaCode, appendEach,
      List.map_nil, List.flatten_nil, List.append_nil, List.length_nil, gt_iff_lt,
      lt_self_iff_false]
  · simp only [generateClassCode, h2, h3, if_false, if_true, generateTypeScriptCode,
      appendEach, List.map_nil, List.flatten_nil, List.append_nil, List.length_nil,
      gt_iff_lt, lt_self_iff_false]

theorem simulate_last_class (lang text : List Char) (pre : List ClassDescriptor)
    (c : ClassDescriptor) (post : List ClassDescriptor) (code : JSValue)
    (hlang : lang ∈ supportedLanguages)
    (hparse : parseSimpleModel text = pre ++ c :: post)
    (hcode : generateClassCode lang c = .ok code)
    (hlast : ∀ d ∈ post, generateFilename lang d.name ≠ generateFilename lang c.name) :
    ∃ files, simulateCodeGeneration lang text = .ok files ∧
      (files.filter (fun e => e.1 = generateFilename lang c.name)).length = 1 ∧
      getFile files (generateFilename lang c.name) = some code := by
  have hattr : ∀ d ∈ parseSimpleModel text, ∀ a ∈ d.attributes, includes a ':' = true := by
    rw [parseSimpleModel_eq]
    exact classesByHeader_attributes _
  have hall : ∀ d ∈ parseSimpleModel text, ∃ v, generateClassCode lang d = .ok v := by
    intro d hd
    obtain ⟨code, h⟩ := generateClassCode_ok lang d hlang (hattr d hd)
    exact ⟨_, h⟩
  obtain ⟨files, hfiles⟩ := generateFiles_ok lang _ hall []
  have hget : getFile files (generateFilename lang c.name) = some code := by
    rw [hparse] at hfiles
    exact generateFiles_getFile_last lang pre c post _ hcode hlast _ _ hfiles
  exact ⟨files, hfiles,
    filter_key_length _ _ (generateFiles_nodup lang _ _ _ hfiles (by simp))
      (getFile_mem_keys _ _ _ hget), hget⟩

/-- C14: a header line followed, up to the next header or the end of the
text, by lines that are neither attribute nor method lines parses to a class
with no attribute and no method, wherever it stands in the model.  For every
supported target `simulateCodeGeneration` returns a mapping with exactly one
entry for the filename of that class, and when no later class has the same
filename the entry holds a complete empty construct: for python the file
`<lower-cased name>.py` whose `__init__` body is the placeholder `pass`, for
java and typescript the file `<name>.java` / `<name>.ts` with the class
declaration, an empty constructor and the closing brace.  For every class the
python placeholder is emitted exactly when the class has no attribute. -/
theorem empty_class_generation (lang text header : List Char)
    (pre body rest : List (List Char))
    (hlang : lang ∈ supportedLanguages)
    (hsplit : split '\n' text = pre ++ header :: (body ++ rest))
    (hh : endsWith (trim header) ':' = true)
    (hbody : ∀ l ∈ body, endsWith (trim l) ':' = false ∧
      isAttributeLine l = false ∧ isMethodLine l = false)
    (hrest : ∀ l ∈ rest.head?, endsWith (trim l) ':' = true)
    (hlast : ∀ d ∈ classesByHeader rest,
      generateFilename lang d.name ≠ generateFilename lang (trim header).dropLast) :
    parseSimpleModel text =
      classesByHeader pre ++
        { name := (trim header).dropLast, attributes := [], methods := [] } ::
          classesByHeader rest ∧
    (∃ files, simulateCodeGeneration lang text = .ok files ∧
      (files.filter
        (fun e => e.1 = generateFilename lang (trim header).dropLast)).length = 1 ∧
      (lang = "python".toList →
        getFile files
            (stripLeadingUnderscore (toLowerCase (trim header).dropLast) ++ ".py".toList) =
          some (.str ("\"\"\"".toList ++ (trim header).dropLast ++
            " class\nGenerated from UML model\n\"\"\"\n\n".toList ++
            "class ".toList ++ (trim header).dropLast ++ ":\n".toList ++
            "    \"\"\"".toList ++ (trim header).dropLast ++ " class\"\"\"\n\n".toList ++
            "    def __init__(self):\n".toList ++
            "        \"\"\"Initialize the class instance\"\"\"\n".toList ++
            "        pass\n".toList ++ "\n".toList))) ∧
      (lang = "java".toList →
        getFile files ((trim header).dropLast ++ ".java".toList) =
          some (.str ("/**\n * ".toList ++ (trim header).dropLast ++
            " class\n * Generated from UML model\n */\n".toList ++
            "public class ".toList ++ (trim header).dropLast ++ " \x7b\n\n".toList ++
            "    /**\n     * Default constructor for ".toList ++ (trim header).dropLast ++
            "\n     */\n".toList ++
            "    public ".toList ++ (trim header).dropLast ++ "() \x7b\n".toList ++
            "    \x7d\n\n".toList ++ "\x7d\n".toList))) ∧
      (lang = "typescript".toList →
        getFile files ((trim header).dropLast ++ ".ts".toList) =
          some (.str ("/**\n * ".toList ++ (trim header).dropLast ++
            " class\n * Generated from UML model\n */\n".toList ++
            "export class ".toList ++ (trim header).dropLast ++ " \x7b\n".toList ++
            "  /**\n   * Creates an instance of ".toList ++ (trim header).dropLast ++
            "\n   */\n".toList ++
            "  constructor() \x7b\n".toList ++
            "  \x7d\n\n".toList ++ "\x7d\n".toList)))) ∧
    ∀ cls : ClassDescriptor, generatePythonCode cls =
      "\"\"\"".toList ++ cls.name ++ " class\nGenerated from UML model\n\"\"\"\n\n".toList ++
      "class ".toList ++ cls.name ++ ":\n".toList ++
      "    \"\"\"".toList ++ cls.name ++ " class\"\"\"\n\n".toList ++
      "    def __init__(self):\n".toList ++
      "        \"\"\"Initialize the class instance\"\"\"\n".toList ++
      (cls.attributes.map pythonFieldLine).flatten ++
      (if cls.attributes = [] then "        pass\n".toList else []) ++
      "\n".toList ++
      (cls.methods.map pythonMethodStub).flatten := by
  have hhead : isHeaderLine header = true := hh
  have hb1 : ∀ l ∈ body, isHeaderLine l = false := fun l hl => (hbody l hl).1
  have hu := linesUntilHeader_body body rest hb1 hrest
  have hparse : parseSimpleModel text =
      classesByHeader pre ++
        { name := (trim header).dropLast, attributes := [], methods := [] } ::
          classesByHeader rest := by
    rw [parseSimpleModel_eq, hsplit, classesByHeader_append_header pre header _ hhead]
    simp only [classesByHeader, hhead, if_true, hu,
      attributeLines_eq_nil body (fun l hl => (hbody l hl).2.1),
      methodLines_eq_nil body (fun l hl => (hbody l hl).2.2),
      classesByHeader_append_of_no_header body rest hb1]
  obtain ⟨hpy, hjava, hts⟩ := generateClassCode_empty (trim header).dropLast
  refine ⟨hparse, ?_, ?_⟩
  · simp only [supportedLanguages, List.mem_cons, List.mem_singleton, List.not_mem_nil,
      or_false] at hlang
    have h1 : ¬ ("java".toList = "python".toList) := by decide
    have h2 : ¬ ("typescript".toList = "python".toList) := by decide
    have h3 : ¬ ("typescript".toList = "java".toList) := by decide
    have h4 : ¬ ("python".toList = "java".toList) := by decide
    have h5 : ¬ ("python".toList = "typescript".toList) := by decide
    have h6 : ¬ ("java".toList = "typescript".toList) := by decide
    rcases hlang with rfl | rfl | rfl
    · obtain ⟨files, hf, hlen, hget⟩ := simulate_last_class "python".toList text _ _ _ _
        (by decide) hparse hpy hlast
      rw [generateFilename_python_eq] at hget
      exact ⟨files, hf, hlen, fun _ => hget, fun e => absurd e h4, fun e => absurd e h5⟩
    · obtain ⟨files, hf, hlen, hget⟩ := simulate_last_class "java".toList text _ _ _ _
        (by decide) hparse hjava hlast
      exact ⟨files, hf, hlen, fun e => absurd e h1, fun _ => hget, fun e => absurd e h6⟩
    · obtain ⟨files, hf, hlen, hget⟩ := simulate_last_class "typescript".toList text _ _ _ _
        (by decide) hparse hts hlast
      exact ⟨files, hf, hlen, fun e => absurd e h2, fun e => absurd e h3, fun _ => hget⟩
  · intro cls
    simp only [generatePythonCode, List.length_eq_zero]

/-- Witness of C14: the class `É` with a blank line after its header, between
the classes `User` and `Order`, python target. -/
theorem empty_class_generation_witness :
    "python".toList ∈ supportedLanguages ∧
    split '\n' "User:\n id: int\nÉ:\n\nOrder:\n total: float".toList =
      ["User:".toList, " id: int".toList] ++ "É:".toList ::
        ([[]] ++ ["Order:".toList, " total: float".toList]) ∧
    parseSimpleModel "User:\n id: int\nÉ:\n\nOrder:\n total: float".toList =
      [{ name := "User".toList, attributes := ["id: int".toList], methods := [] },
       { name := "É".toList, attributes := [], methods := [] },
       { name := "Order".toList, attributes := ["total: float".toList], methods := [] }] ∧
    stripLeadingUnderscore (toLowerCase (trim "É:".toList).dropLast) ++ ".py".toList =
      "é.py".toList :=
  ⟨by decide, by decide!,
    ((empty_class_generation "python".toList
      "User:\n id: int\nÉ:\n\nOrder:\n total: float".toList "É:".toList
      ["User:".toList, " id: int".toList] [[]] ["Order:".toList, " total: float".toList]
      (by decide) (by decide!) (by decide!) (by decide!) (by decide!) (by decide!)).1).trans
      (by decide!),
    by decide!⟩

/-- C16, amended: a line whose trimmed form is a name followed by `:` never
raises and is no attribute: appended to a text it opens a new class named by
the text before the `:`, the classes before it are parsed as without it, and
every supported target returns a mapping whose single entry for the filename
of the new class holds the code of that class.  An attribute line whose second
`:`-segment is blank, such as `id: :x`, reaches the emitters with the empty
type and gets the fallback type `Object` (java) or `any` (typescript). -/
theorem line_without_type_is_header (lang t l : List Char)
    (hlang : lang ∈ supportedLanguages) (hl : '\n' ∉ l)
    (hh : endsWith (trim l) ':' = true) :
    parseSimpleModel (t ++ '\n' :: l) =
      parseSimpleModel t ++ [{ name := (trim l).dropLast, attributes := [], methods := [] }] ∧
    (∃ files code, simulateCodeGeneration lang (t ++ '\n' :: l) = .ok files ∧
      generateClassCode lang { name := (trim l).dropLast, attributes := [], methods := [] } =
        .ok (.str code) ∧
      (files.filter (fun e => e.1 = generateFilename lang (trim l).dropLast)).length = 1 ∧
      getFile files (generateFilename lang (trim l).dropLast) = some (.str code)) ∧
    (∀ x y rest : List Char, ':' ∉ x → ':' ∉ y → trim y = [] →
      attrNameType (x ++ ':' :: (y ++ ':' :: rest)) = (trim x, some []) ∧
      javaFieldLine (x ++ ':' :: (y ++ ':' :: rest)) =
        .ok ("    private ".toList ++ "Object".toList ++ " ".toList ++ trim x ++ ";\n".toList) ∧
      typeScriptFieldLine (x ++ ':' :: (y ++ ':' :: rest)) =
        .ok ("  private ".toList ++ trim x ++ ": ".toList ++ "any".toList ++ ";\n".toList)) ∧
    parseSimpleModel "User:\n  id: :x".toList =
      [{ name := "User".toList, attributes := ["id: :x".toList], methods := [] }] ∧
    simulateCodeGeneration "java".toList "User:\n  id: :x".toList =
      .ok [("User.java".toList, .str
        ("/**\n * User class\n * Generated from UML model\n */\npublic class User \x7b\n\n".toList ++
          "    private Object id;\n\n".toList ++
          "    /**\n     * Default constructor for User\n     */\n".toList ++
          "    public User() \x7b\n    \x7d\n\n\x7d\n".toList))] := by
  have hparse : parseSimpleModel (t ++ '\n' :: l) =
      parseSimpleModel t ++
        [{ name := (trim l).dropLast, attributes := [], methods := [] }] := by
    rw [parseSimpleModel_append_line t l hl, parseLine_header _ _ hh]
    rfl
  refine ⟨hparse, ?_, ?_, by decide!, by decide!⟩
  · obtain ⟨code, hcode⟩ := generateClassCode_ok lang
      { name := (trim l).dropLast, attributes := [], methods := [] } hlang
      (fun a ha => by cases ha)
    obtain ⟨files, hf, hlen, hget⟩ := simulate_last_class lang (t ++ '\n' :: l)
      (parseSimpleModel t) { name := (trim l).dropLast, attributes := [], methods := [] } []
      (.str code) hlang hparse hcode (by intro d hd; cases hd)
    exact ⟨files, code, hf, hcode, hlen, hget⟩
  · intro x y rest hx hy hty
    have h3 : attrNameType (x ++ ':' :: (y ++ ':' :: rest)) = (trim x, some []) := by
      simp only [attrNameType, split_three x y rest hx hy, List.map_cons, List.headD_cons,
        List.tail_cons, List.head?_cons, hty]
    have hj : mapToJavaType (some []) = .ok (.str "Object".toList) := by decide
    have hts : mapToTypeScriptType (some []) = .ok (.str "any".toList) := by decide
    refine ⟨h3, ?_, ?_⟩
    · simp only [javaFieldLine, h3, hj, toJSString]
    · simp only [typeScriptFieldLine, h3, hts, toJSString]

/-- Witness of C16, amended: the line `  id:` after the text `User:`, java
target, and the attribute line `id: :x`. -/
theorem line_without_type_is_header_witness :
    "java".toList ∈ supportedLanguages ∧ '\n' ∉ "  id:".toList ∧
    endsWith (trim "  id:".toList) ':' = true ∧
    parseSimpleModel ("User:".toList ++ '\n' :: "  id:".toList) =
      [{ name := "User".toList, attributes := [], methods := [] },
       { name := "id".toList, attributes := [], methods := [] }] ∧
    ':' ∉ "id".toList ∧ ':' ∉ " ".toList ∧ trim " ".toList = [] ∧
    javaFieldLine ("id".toList ++ ':' :: (" ".toList ++ ':' :: "x".toList)) =
      .ok "    private Object id;\n".toList :=
  ⟨by decide, by decide, by decide,
    ((line_without_type_is_header "java".toList "User:".toList "  id:".toList
      (by decide) (by decide) (by decide)).1).trans (by decide),
    by decide, by decide, by decide,
    (((line_without_type_is_header "java".toList "User:".toList "  id:".toList
      (by decide) (by decide) (by decide)).2.2.1 "id".toList " ".toList "x".toList
      (by decide) (by decide) (by decide)).2.1).trans (by decide!)⟩

theorem javaFieldLine_eq (attr : List Char) (h : includes attr ':' = true) :
    javaFieldLine attr =
      .ok ("    private ".toList ++
        toJSString (orElse (getProp javaMapping (toLowerCase (declaredType attr)))
          "Object".toList) ++ " ".toList ++ (attrNameType attr).1 ++ ";\n".toList) := by
  have ht := attrNameType_of_includes attr h
  simp only [javaFieldLine, ht, mapToJavaType]

theorem typeScriptFieldLine_eq (attr : List Char) (h : includes attr ':' = true) :
    typeScriptFieldLine attr =
      .ok ("  private ".toList ++ (attrNameType attr).1 ++ ": ".toList ++
        toJSString (orElse (getProp typeScriptMapping (toLowerCase (declaredType attr)))
          "any".toList) ++ ";\n".toList) := by
  have ht := attrNameType_of_includes attr h
  simp only [typeScriptFieldLine, ht, mapToTypeScriptType]

theorem infix_append_right {l X : List Char} (h : l <:+: X) (Y : List Char) :
    l <:+: X ++ Y :=
  h.trans (List.prefix_append X Y).isInfix

theorem infix_append_left {l X : List Char} (h : l <:+: X) (Y : List Char) :
    l <:+: Y ++ X :=
  h.trans (List.suffix_append Y X).isInfix

theorem line_infix_flatten (g : List Char → List Char) (pre post : List (List Char))
    (a : List Char) : g a <:+: ((pre ++ a :: post).map g).flatten :=
  List.infix_of_mem_flatten (List.mem_map_of_mem g (by simp))

/-- C19: an attribute line with more than one `:` is read by its first two
segments only.  The three emitters write the first segment, trimmed, as the
field name and take the second segment, trimmed, as the declared type (the
python comment shows it, java and typescript map it, the typescript
constructor takes its default from it); what follows the second `:` appears
nowhere, and the output of each emitter is the same as for the line cut after
the second segment. -/
theorem attribute_extra_segments_discarded (x y rest : List Char)
    (hx : ':' ∉ x) (hy : ':' ∉ y) :
    attrNameType (x ++ ':' :: (y ++ ':' :: rest)) = (trim x, some (trim y)) ∧
    attrNameType (x ++ ':' :: y) = (trim x, some (trim y)) ∧
    pythonFieldLine (x ++ ':' :: (y ++ ':' :: rest)) =
      "        self._".toList ++ trim x ++ " = None  # ".toList ++ trim y ++ "\n".toList ∧
    javaFieldLine (x ++ ':' :: (y ++ ':' :: rest)) =
      .ok ("    private ".toList ++
        toJSString (orElse (getProp javaMapping (toLowerCase (trim y))) "Object".toList) ++
        " ".toList ++ trim x ++ ";\n".toList) ∧
    typeScriptFieldLine (x ++ ':' :: (y ++ ':' :: rest)) =
      .ok ("  private ".toList ++ trim x ++ ": ".toList ++
        toJSString (orElse (getProp typeScriptMapping (toLowerCase (trim y))) "any".toList) ++
        ";\n".toList) ∧
    typeScriptInitLine (x ++ ':' :: (y ++ ':' :: rest)) =
      .ok ("    this.".toList ++ trim x ++ " = ".toList ++ typeScriptDefaultFor (trim y) ++
        ";\n".toList) ∧
    ∀ (name : List Char) (pre post methods : List (List Char)),
      (generatePythonCode
          { name := name, attributes := pre ++ (x ++ ':' :: (y ++ ':' :: rest)) :: post,
            methods := methods } =
        generatePythonCode
          { name := name, attributes := pre ++ (x ++ ':' :: y) :: post, methods := methods } ∧
      generateJavaCode
          { name := name, attributes := pre ++ (x ++ ':' :: (y ++ ':' :: rest)) :: post,
            methods := methods } =
        generateJavaCode
          { name := name, attributes := pre ++ (x ++ ':' :: y) :: post, methods := methods } ∧
      generateTypeScriptCode
          { name := name, attributes := pre ++ (x ++ ':' :: (y ++ ':' :: rest)) :: post,
            methods := methods } =
        generateTypeScriptCode
          { name := name, attributes := pre ++ (x ++ ':' :: y) :: post,
            methods := methods }) ∧
      (("        self._".toList ++ trim x ++ " = None  # ".toList ++ trim y ++ "\n".toList) <:+:
        generatePythonCode
          { name := name, attributes := pre ++ (x ++ ':' :: (y ++ ':' :: rest)) :: post,
            methods := methods }) ∧
      ((∀ a ∈ pre ++ post, includes a ':' = true) →
        (∃ code, generateJavaCode
            { name := name, attributes := pre ++ (x ++ ':' :: (y ++ ':' :: rest)) :: post,
              methods := methods } = .ok code ∧
          ("    private ".toList ++
            toJSString (orElse (getProp javaMapping (toLowerCase (trim y)))
              "Object".toList) ++ " ".toList ++ trim x ++ ";\n".toList) <:+: code) ∧
        (∃ code, generateTypeScriptCode
            { name := name, attributes := pre ++ (x ++ ':' :: (y ++ ':' :: rest)) :: post,
              methods := methods } = .ok code ∧
          ("  private ".toList ++ trim x ++ ": ".toList ++
            toJSString (orElse (getProp typeScriptMapping (toLowerCase (trim y)))
              "any".toList) ++ ";\n".toList) <:+: code ∧
          ("    this.".toList ++ trim x ++ " = ".toList ++ typeScriptDefaultFor (trim y) ++
            ";\n".toList) <:+: code)) := by
  have h3 : attrNameType (x ++ ':' :: (y ++ ':' :: rest)) = (trim x, some (trim y)) := by
    simp only [attrNameType, split_three x y rest hx hy, List.map_cons, List.headD_cons,
      List.tail_cons, List.head?_cons]
  have h2 : attrNameType (x ++ ':' :: y) = (trim x, some (trim y)) := by
    simp only [attrNameType, split_two x y hx hy, List.map_cons, List.headD_cons,
      List.tail_cons, List.head?_cons]
  have hd : declaredType (x ++ ':' :: (y ++ ':' :: rest)) = trim y := by
    simp only [declaredType, h3, Option.getD_some]
  have hinc : includes (x ++ ':' :: (y ++ ':' :: rest)) ':' = true := by simp [includes]
  have hpl : pythonFieldLine (x ++ ':' :: (y ++ ':' :: rest)) =
      "        self._".toList ++ trim x ++ " = None  # ".toList ++ trim y ++ "\n".toList := by
    simp only [pythonFieldLine, h3, toJSString]
  have hjl := javaFieldLine_eq _ hinc
  have htl := typeScriptFieldLine_eq _ hinc
  have hil := typeScriptInitLine_eq _ hinc
  simp only [hd, h3] at hjl htl
  simp only [typeScriptAssignment, hd, h3] at hil
  refine ⟨h3, h2, hpl, hjl, htl, hil, ?_⟩
  intro name pre post methods
  have hpy : pythonFieldLine (x ++ ':' :: (y ++ ':' :: rest)) = pythonFieldLine (x ++ ':' :: y) := by
    simp only [pythonFieldLine, h3, h2]
  have hj : javaFieldLine (x ++ ':' :: (y ++ ':' :: rest)) = javaFieldLine (x ++ ':' :: y) := by
    simp only [javaFieldLine, h3, h2]
  have htf : typeScriptFieldLine (x ++ ':' :: (y ++ ':' :: rest)) =
      typeScriptFieldLine (x ++ ':' :: y) := by
    simp only [typeScriptFieldLine, h3, h2]
  have hti : typeScriptInitLine (x ++ ':' :: (y ++ ':' :: rest)) =
      typeScriptInitLine (x ++ ':' :: y) := by
    simp only [typeScriptInitLine, h3, h2]
  refine ⟨⟨?_, ?_, ?_⟩, ?_, ?_⟩
  · simp only [generatePythonCode, List.map_append, List.map_cons, hpy, List.length_append,
      List.length_cons]
  · simp only [generateJavaCode, appendEach_congr_mid javaFieldLine _ _ hj pre post,
      List.length_append, List.length_cons]
  · simp only [generateTypeScriptCode,
      appendEach_congr_mid typeScriptFieldLine _ _ htf pre post,
      appendEach_congr_mid typeScriptInitLine _ _ hti pre post,
      List.length_append, List.length_cons]
  · have hflat := line_infix_flatten pythonFieldLine pre post
      (x ++ ':' :: (y ++ ':' :: rest))
    rw [hpl] at hflat
    simp only [generatePythonCode]
    iterate 3 apply infix_append_right
    exact infix_append_left hflat _
  · intro hwf
    have hall : ∀ a ∈ pre ++ (x ++ ':' :: (y ++ ':' :: rest)) :: post,
        includes a ':' = true := by
      intro a ha
      rcases List.mem_append.mp ha with h1 | h1
      · exact hwf a (List.mem_append_left _ h1)
      · rcases List.mem_cons.mp h1 with h4 | h4
        · rw [h4]; exact hinc
        · exact hwf a (List.mem_append_right _ h4)
    have hjf := appendEach_eq_flatten javaFieldLine
      (fun a => "    private ".toList ++
        toJSString (orElse (getProp javaMapping (toLowerCase (declaredType a)))
          "Object".toList) ++ " ".toList ++ (attrNameType a).1 ++ ";\n".toList)
      _ (fun a ha => javaFieldLine_eq a (hall a ha))
    have htff := appendEach_eq_flatten typeScriptFieldLine
      (fun a => "  private ".toList ++ (attrNameType a).1 ++ ": ".toList ++
        toJSString (orElse (getProp typeScriptMapping (toLowerCase (declaredType a)))
          "any".toList) ++ ";\n".toList)
      _ (fun a ha => typeScriptFieldLine_eq a (hall a ha))
    have htif := appendEach_eq_flatten typeScriptInitLine typeScriptAssignment
      _ (fun a ha => typeScriptInitLine_eq a (hall a ha))
    have hfj := line_infix_flatten
      (fun a => "    private ".toList ++
        toJSString (orElse (getProp javaMapping (toLowerCase (declaredType a)))
          "Object".toList) ++ " ".toList ++ (attrNameType a).1 ++ ";\n".toList)
      pre post (x ++ ':' :: (y ++ ':' :: rest))
    have hft := line_infix_flatten
      (fun a => "  private ".toList ++ (attrNameType a).1 ++ ": ".toList ++
        toJSString (orElse (getProp typeScriptMapping (toLowerCase (declaredType a)))
          "any".toList) ++ ";\n".toList)
      pre post (x ++ ':' :: (y ++ ':' :: rest))
    have hfi := line_infix_flatten typeScriptAssignment
      pre post (x ++ ':' :: (y ++ ':' :: rest))
    simp only [hd, h3] at hfj hft
    simp only [typeScriptAssignment, hd, h3] at hfi
    constructor
    · simp only [generateJavaCode, hjf]
      refine ⟨_, rfl, ?_⟩
      iterate 10 apply infix_append_right
      exact infix_append_left hfj _
    · simp only [generateTypeScriptCode, htff, htif]
      refine ⟨_, rfl, ?_, ?_⟩
      · iterate 9 apply infix_append_right
        exact infix_append_left hft _
      · have hfi2 : ("    this.".toList ++ trim x ++ " = ".toList ++
            typeScriptDefaultFor (trim y) ++ ";\n".toList) <:+:
            ((pre ++ (x ++ ':' :: (y ++ ':' :: rest)) :: post).map
              typeScriptAssignment).flatten := hfi
        iterate 3 apply infix_append_right
        exact infix_append_left hfi2 _

/-- Witness of C19: the line `a: b: c` gives the python line
`self._a = None  # b` and the java line `private Object a;`. -/
theorem attribute_extra_segments_discarded_witness :
    ':' ∉ "a".toList ∧ ':' ∉ " b".toList ∧
    attrNameType ("a".toList ++ ':' :: (" b".toList ++ ':' :: " c".toList)) =
      ("a".toList, some "b".toList) ∧
    pythonFieldLine ("a".toList ++ ':' :: (" b".toList ++ ':' :: " c".toList)) =
      "        self._a = None  # b\n".toList ∧
    javaFieldLine ("a".toList ++ ':' :: (" b".toList ++ ':' :: " c".toList)) =
      .ok "    private Object a;\n".toList :=
  ⟨by decide, by decide,
    ((attribute_extra_segments_discarded "a".toList " b".toList " c".toList
      (by decide) (by decide)).1).trans (by decide),
    ((attribute_extra_segments_discarded "a".toList " b".toList " c".toList
      (by decide) (by decide)).2.2.1).trans (by decide!),
    ((attribute_extra_segments_discarded "a".toList " b".toList " c".toList
      (by decide) (by decide)).2.2.2.1).trans (by decide!)⟩

end UmlToCode
